import Mathlib

/-! # PF906 treadmill motor driver

A shallow embedding of `PF906_base_code_v4b.c` (PIC 16F690, XC8).

* Registers and globals the program reads or writes are fields of `State`.
* `main` is a program-counter machine: one `Event.fg` is one statement of
  `main` (or of `FlashLED1`, which `main` calls), the locations are named after
  the source line of the statement they stand before.
* `Isr` is the interrupt routine, its body followed by the return from
  interrupt; `Event.isr` is one invocation of it, which may come between any
  two statements.
* Machine integers are `Nat`/`Int` with explicit wrap-around (`uint8_t` modulo
  256, `int` modulo 2^16 in two's complement).
-/

namespace PF906

/-! ## Constants -/

/-- Source: `#define LOW 0x00`. -/
abbrev LOW : Bool := false

/-- Source: `#define HIGH 0x01`. -/
abbrev HIGH : Bool := true

/-- Source: `const int TestVoltage = 0x214;` -/
def TestVoltage : Int := 0x214

/-- Source: `const int minimumVoltage = 0x10E;` -/
def minimumVoltage : Int := 0x10E

/-- Source: `uint8_t desiredSpeed[] = {0x0,0x31,...,0xDC};` -/
def desiredSpeed : List Nat :=
  [0x0, 0x31, 0x42, 0x53, 0x64, 0x75, 0x86, 0x97, 0xA8, 0xBA, 0xCB, 0xDC]

/-! ## Machine arithmetic -/

/-- A 16 bit pattern read as the signed `int` of the target. -/
def toInt16 (n : Nat) : Int :=
  if n % 65536 < 32768 then ((n % 65536 : Nat) : Int) else ((n % 65536 : Nat) : Int) - 65536

/-- An integer wrapped into the signed 16 bit range of `int`. -/
def wrapInt16 (z : Int) : Int :=
  toInt16 (z % 65536).toNat

/-- Source: `x << 1` stored back into a `uint8_t`. -/
def shl8 (x : Nat) : Nat := (x <<< 1) % 256

/-- Source: `++x` on a `uint8_t`. -/
def inc8 (x : Nat) : Nat := (x + 1) % 256

/-- Source: `--x` on a `uint8_t`. -/
def dec8 (x : Nat) : Nat := (x + 255) % 256

/-- The two statements `history = history << 1; history |= sample;` that poll
one line (lines 300-301, 387-388, 389-390). -/
def debounceUpdate (history : Nat) (sample : Bool) : Nat :=
  shl8 history ||| sample.toNat

/-- Source, line 392-393: `if (button_history_speedUP == 0b10000000)
{ if (desiredSpeedCtr < 11) ++desiredSpeedCtr; }`. -/
def onSpeedUp (history ctr : Nat) : Nat :=
  if history = 0b10000000 then (if ctr < 11 then inc8 ctr else ctr) else ctr

/-- Source, line 397-398: `if (button_history_speedDN == 0b10000000)
{ if (desiredSpeedCtr > 0) --desiredSpeedCtr; }`. -/
def onSpeedDown (history ctr : Nat) : Nat :=
  if history = 0b10000000 then (if ctr > 0 then dec8 ctr else ctr) else ctr

/-- Source, line 408: the value written to `CCP1CONbits.DC1B`. -/
def dutyLow (v : Nat) : Nat := v &&& 0x3

/-- Source, line 410: the value written to the 8 bit register `CCPR1L`. -/
def dutyHigh (v : Nat) : Nat := (v >>> 2) % 256

/-- Source: `return (ADRESL | (ADRESH<<8));` at the end of `CheckHV`, for the
contents the converter left in the two 8 bit result registers. -/
def CheckHV (ADRESL ADRESH : Nat) : Int :=
  toInt16 ((ADRESL % 256) ||| ((ADRESH % 256) <<< 8))

/-! ## State -/

/-- Program locations: `Lnnn` stands before the statement of `main` at source
line nnn, `Fnnn` before the statement of `FlashLED1` at line nnn. `UB` is
entered by a read of `desiredSpeed` outside its bounds. -/
inductive PC where
  | L229 | L232 | L233 | L236 | L237
  | L270 | L271 | L272 | L273
  | L276 | L277
  | L298 | L300 | L301
  | L314 | L317
  | L325 | L384 | L387 | L388 | L389 | L390 | L392 | L397 | L408 | L410
  | L430 | L431 | L432 | L433 | L434
  | L442
  | F453 | F454 | F455 | F457 | F458 | F459 | F460 | F461 | F462 | F463 | F464
  | F465 | F466
  | UB
  deriving DecidableEq, Repr

/-- The registers and variables of the program. -/
structure State where
  pc : PC
  /-- RA1, feedback link. -/
  FR6out : Bool
  /-- RA4. -/
  RaiseLower_output : Bool
  /-- RA5, belt motor on/off via totem control. -/
  TotemControl_output : Bool
  /-- RB7, control of the motor DC power supply. -/
  PowerPermissive_output : Bool
  /-- RC4, active low. -/
  LED1 : Bool
  /-- RC6. -/
  LiftPower_output : Bool
  HV : Int
  button_history_speedUP : Nat
  button_history_speedDN : Nat
  button_history_UserPowerOn_input : Nat
  desiredSpeedCtr : Nat
  actualSpeedPulses : Int
  CCPR1L : Nat
  /-- The two bits CCP1CON<5:4>. -/
  DC1B : Nat
  PR2 : Nat
  /-- INTCON<7>. -/
  GIE : Bool
  /-- INTCON<6>. -/
  PEIE : Bool
  /-- PIE2, comparator 1 interrupt enable. -/
  C1IE : Bool
  /-- PIR2, comparator 1 interrupt flag. -/
  C1IF : Bool
  /-- PIE1, timer 1 interrupt enable. -/
  TMR1IE : Bool
  /-- PIR1, timer 1 interrupt flag. -/
  TMR1IF : Bool
  /-- CM1CON0<7>. -/
  C1ON : Bool
  /-- T1CON<0>. -/
  TMR1ON : Bool
  /-- Argument of `FlashLED1`. -/
  times : Nat
  /-- Argument of `FlashLED1`. -/
  period : Nat
  /-- Local of `FlashLED1`. -/
  p : Nat
  deriving DecidableEq, Repr

/-- What the foreground reads from the outside world while it executes one
statement: the A/D result registers at the end of a conversion and the levels
of the three input pins. -/
structure Pins where
  ADRESL : Nat
  ADRESH : Nat
  /-- RC7, active high. -/
  UserPowerOn_input : Bool
  /-- RB6, active low. -/
  SpeedUp_input : Bool
  /-- RB5, active low. -/
  SpeedDown_input : Bool
  deriving DecidableEq, Repr

/-- One atomic step of the system. -/
inductive Event where
  /-- The foreground executes its next statement. -/
  | fg (i : Pins)
  /-- The interrupt routine `Isr` runs. -/
  | isr
  /-- The hardware raises the comparator 1 interrupt flag. -/
  | c1Edge
  /-- The hardware raises the timer 1 interrupt flag. -/
  | tmr1Overflow
  deriving DecidableEq, Repr

/-! ## Setup -/

/-- Source: `startPWM`, on the registers of `State`. -/
def startPWM (s : State) : State :=
  { s with PR2 := 0x65, DC1B := 0, CCPR1L := 0 }

/-- Source: `setupactualSpeedPulses`: `PIE2bits.C1IE = 1; CM1CON0 = 0b01000111;`
(bit 7, C1ON, is 0). -/
def setupactualSpeedPulses (s : State) : State :=
  { s with C1IE := HIGH, C1ON := LOW }

/-- Source: `doSetup`, on the registers of `State`:
`PORTA = 0b00000010; PORTB = 0; PORTC = 0b01110000; INTCON = 0; PIR1 = 0;
PIR2 = 0; startPWM(); T1CON = 0b00100000; PIE1bits.TMR1IE = 1;
setupactualSpeedPulses();`. -/
def doSetup (s : State) : State :=
  let s1 := { s with FR6out := HIGH, RaiseLower_output := LOW, TotemControl_output := LOW,
                     PowerPermissive_output := LOW, LED1 := HIGH, LiftPower_output := HIGH,
                     GIE := LOW, PEIE := LOW, TMR1IF := LOW, C1IF := LOW }
  let s2 := startPWM s1
  let s3 := { s2 with TMR1ON := LOW, TMR1IE := HIGH }
  setupactualSpeedPulses s3

/-- The globals as their initialisers leave them (lines 188-200), the registers
as in `por`. -/
def entry (por : State) : State :=
  { por with HV := 0, button_history_speedUP := 0b11111111,
             button_history_speedDN := 0b11111111,
             button_history_UserPowerOn_input := 0b00000000,
             desiredSpeedCtr := 0, actualSpeedPulses := 0 }

/-- The state in which `doSetup()`, the first statement of `main`, returns, for
the register contents `por` found at power up. -/
def start (por : State) : State :=
  { doSetup (entry por) with pc := PC.L229 }

/-! ## The interrupt routine -/

/-- Source, lines 850-866: the statements of the body of `Isr`:
`INTCONbits.GIE = LOW;`, the comparator 1 branch and the Timer 1 branch. -/
def IsrBody (s : State) : State :=
  let s1 := { s with GIE := LOW }
  let s2 := if s1.C1IE && s1.C1IF then
      { s1 with actualSpeedPulses := wrapInt16 (s1.actualSpeedPulses + 1), C1IF := LOW }
    else s1
  if s2.TMR1IE && s2.TMR1IF then { s2 with C1ON := LOW, TMR1ON := LOW } else s2

/-- Source, line 846: the `__interrupt` qualifier of `Isr`. A routine declared
so returns with the return-from-interrupt instruction of the PIC 16F690, which
sets GIE. -/
def returnFromInterrupt (s : State) : State :=
  { s with GIE := HIGH }

/-- Source: `void __interrupt() Isr(void)`, one invocation: the statements of
the body, then the return from interrupt. -/
def Isr (s : State) : State :=
  returnFromInterrupt (IsrBody s)

/-! ## The foreground -/

/-- One statement of `main` (or of `FlashLED1` called from it). -/
def fgStep (s : State) (i : Pins) : State :=
  match s.pc with
  | .L229 => { s with LED1 := LOW, pc := .L232 }
  | .L232 => { s with RaiseLower_output := LOW, pc := .L233 }
  | .L233 => { s with LiftPower_output := HIGH, pc := .L236 }
  | .L236 => { s with PowerPermissive_output := LOW, pc := .L237 }
  | .L237 => { s with TotemControl_output := LOW, pc := .L270 }
  -- HV = CheckHV();
  | .L270 => { s with HV := CheckHV i.ADRESL i.ADRESH, pc := .L271 }
  -- while (HV <= TestVoltage) {
  | .L271 => if s.HV ≤ TestVoltage then { s with pc := .L272 } else { s with pc := .L276 }
  -- __delay_ms(250);
  | .L272 => { s with pc := .L273 }
  -- HV = CheckHV(); }
  | .L273 => { s with HV := CheckHV i.ADRESL i.ADRESH, pc := .L271 }
  | .L276 => { s with FR6out := LOW, pc := .L277 }
  | .L277 => { s with PowerPermissive_output := HIGH, pc := .L298 }
  -- while (button_history_UserPowerOn_input != 0b01111111) {
  | .L298 =>
    if s.button_history_UserPowerOn_input ≠ 0b01111111 then { s with pc := .L300 }
    else { s with pc := .L314 }
  | .L300 =>
    { s with button_history_UserPowerOn_input := shl8 s.button_history_UserPowerOn_input,
             pc := .L301 }
  | .L301 =>
    { s with button_history_UserPowerOn_input :=
               s.button_history_UserPowerOn_input ||| i.UserPowerOn_input.toNat,
             pc := .L298 }
  -- INTCON = 0b11000000;
  | .L314 => { s with GIE := HIGH, PEIE := HIGH, pc := .L317 }
  | .L317 => { s with TotemControl_output := HIGH, pc := .L325 }
  -- while (UserPowerOn_input && PowerPermissive_output) {
  | .L325 =>
    if i.UserPowerOn_input && s.PowerPermissive_output then { s with pc := .L384 }
    else { s with pc := .L430 }
  | .L384 => { s with FR6out := HIGH, pc := .L387 }
  | .L387 => { s with button_history_speedUP := shl8 s.button_history_speedUP, pc := .L388 }
  | .L388 =>
    { s with button_history_speedUP := s.button_history_speedUP ||| i.SpeedUp_input.toNat,
             pc := .L389 }
  | .L389 => { s with button_history_speedDN := shl8 s.button_history_speedDN, pc := .L390 }
  | .L390 =>
    { s with button_history_speedDN := s.button_history_speedDN ||| i.SpeedDown_input.toNat,
             pc := .L392 }
  | .L392 =>
    { s with desiredSpeedCtr := onSpeedUp s.button_history_speedUP s.desiredSpeedCtr,
             pc := .L397 }
  | .L397 =>
    { s with desiredSpeedCtr := onSpeedDown s.button_history_speedDN s.desiredSpeedCtr,
             pc := .L408 }
  -- CCP1CONbits.DC1B = (desiredSpeed[desiredSpeedCtr] & 0x3);
  | .L408 =>
    match desiredSpeed[s.desiredSpeedCtr]? with
    | some v => { s with DC1B := dutyLow v, pc := .L410 }
    | none => { s with pc := .UB }
  -- CCPR1L = (desiredSpeed[desiredSpeedCtr] >> 2); }
  | .L410 =>
    match desiredSpeed[s.desiredSpeedCtr]? with
    | some v => { s with CCPR1L := dutyHigh v, pc := .L325 }
    | none => { s with pc := .UB }
  | .L430 => { s with DC1B := 0, pc := .L431 }
  | .L431 => { s with CCPR1L := 0, pc := .L432 }
  | .L432 => { s with TotemControl_output := LOW, pc := .L433 }
  | .L433 => { s with PowerPermissive_output := LOW, pc := .L434 }
  | .L434 => { s with LED1 := HIGH, pc := .L442 }
  -- while (1) { FlashLED1(1,4); }
  | .L442 => { s with times := 1, period := 4, pc := .F453 }
  -- uint8_t p = period;
  | .F453 => { s with p := s.period, pc := .F454 }
  | .F454 => if s.times > 5 then { s with times := 5, pc := .F455 } else { s with pc := .F455 }
  | .F455 =>
    if s.period > 10 then { s with period := 10, pc := .F457 } else { s with pc := .F457 }
  -- do { LED1 = HIGH;
  | .F457 => { s with LED1 := HIGH, pc := .F458 }
  -- do { __delay_ms(50);
  | .F458 => { s with pc := .F459 }
  -- } while (--p);
  | .F459 =>
    if dec8 s.p ≠ 0 then { s with p := dec8 s.p, pc := .F458 }
    else { s with p := dec8 s.p, pc := .F460 }
  | .F460 => { s with p := s.period, pc := .F461 }
  | .F461 => { s with LED1 := LOW, pc := .F462 }
  | .F462 => { s with pc := .F463 }
  | .F463 =>
    if dec8 s.p ≠ 0 then { s with p := dec8 s.p, pc := .F462 }
    else { s with p := dec8 s.p, pc := .F464 }
  | .F464 => { s with p := s.period, pc := .F465 }
  -- } while (--times);
  | .F465 =>
    if dec8 s.times ≠ 0 then { s with times := dec8 s.times, pc := .F457 }
    else { s with times := dec8 s.times, pc := .F466 }
  -- LED1 = HIGH; and return to the `while (1)` of main
  | .F466 => { s with LED1 := HIGH, pc := .L442 }
  | .UB => s

/-- One step of the system. -/
def step (s : State) (e : Event) : State :=
  match e with
  | .fg i => fgStep s i
  | .isr => Isr s
  | .c1Edge => { s with C1IF := HIGH }
  | .tmr1Overflow => { s with TMR1IF := HIGH }

/-- The state after the events `es`, in order, from `s`. -/
def exec (s : State) (es : List Event) : State :=
  es.foldl step s

/-! ## Observers of a run -/

/-- What the call of `CheckHV` returns, when the step `e` from `s` is one of the
two calls (line 270, line 273). -/
def hvOf (s : State) (e : Event) : List Int :=
  match e, s.pc with
  | .fg i, .L270 => [CheckHV i.ADRESL i.ADRESH]
  | .fg i, .L273 => [CheckHV i.ADRESL i.ADRESH]
  | _, _ => []

/-- The values `CheckHV` returned during the events `es` from `s`, in order. -/
def hvReturned : State → List Event → List Int
  | _, [] => []
  | s, e :: es => hvOf s e ++ hvReturned (step s e) es

/-- A press event of one of the two speed buttons. -/
inductive Press where
  | up
  | down
  deriving DecidableEq, Repr

/-- The press event the step `e` from `s` acts on, if any: the statement of
line 392 with the speed-up history at the press pattern, the statement of
line 397 with the speed-down history at it. -/
def pressOf (s : State) (e : Event) : List Press :=
  match e, s.pc with
  | .fg _, .L392 => if s.button_history_speedUP = 0b10000000 then [Press.up] else []
  | .fg _, .L397 => if s.button_history_speedDN = 0b10000000 then [Press.down] else []
  | _, _ => []

/-- The press events acted on during the events `es` from `s`, in order. -/
def pressEvents : State → List Event → List Press
  | _, [] => []
  | s, e :: es => pressOf s e ++ pressEvents (step s e) es

/-- The speed step of the specification: an up event adds one, a down event
takes one off, clamped at 0 and 11. -/
def saturate (c : Nat) : List Press → Nat
  | [] => c
  | Press.up :: ps => saturate (min (c + 1) 11) ps
  | Press.down :: ps => saturate (c - 1) ps

/-- The number of foreground statements among the events. -/
def fgCount : List Event → Nat
  | [] => 0
  | Event.fg _ :: es => fgCount es + 1
  | _ :: es => fgCount es

/-- The locations of the terminal loop `while (1) { FlashLED1(1,4); }`, the
body of `FlashLED1` included. -/
def inTerminal : PC → Bool
  | .L442 | .F453 | .F454 | .F455 | .F457 | .F458 | .F459 | .F460 | .F461 | .F462
  | .F463 | .F464 | .F465 | .F466 => true
  | _ => false

/-- The PWM duty is 0 and the two drive outputs are LOW. -/
def driveOff (s : State) : Prop :=
  s.CCPR1L = 0 ∧ s.DC1B = 0 ∧ s.TotemControl_output = LOW ∧ s.PowerPermissive_output = LOW

instance (s : State) : Decidable (driveOff s) := by
  unfold driveOff; infer_instance

/-! ## The two wait loops on finite input -/

/-- The supply wait loop, lines 270-274, on the values `CheckHV` returns: `hv`
is the value of `HV` at the loop test, `readings` the values of the calls still
to come. The result is the number of readings taken from `readings` when the
loop ends, `none` when the loop is still polling after the last of them. -/
def supplyWait (hv : Int) : List Int → Option Nat
  | [] => if hv ≤ TestVoltage then none else some 0
  | r :: rest => if hv ≤ TestVoltage then (supplyWait r rest).map (· + 1) else some 0

/-- The consent wait loop, lines 298-302, on the samples of `UserPowerOn_input`:
the number of polls made when the loop ends, `none` when the loop is still
polling after the last sample. -/
def consentWait (history : Nat) : List Bool → Option Nat
  | [] => if history ≠ 0b01111111 then none else some 0
  | b :: rest =>
    if history ≠ 0b01111111 then (consentWait (debounceUpdate history b) rest).map (· + 1)
    else some 0

/-- The history after the first `n` of the samples have been polled. -/
def historyAfter (history : Nat) (samples : List Bool) (n : Nat) : Nat :=
  (samples.take n).foldl debounceUpdate history

/-- Poll `n` exists and the 7 most recent samples at poll `n` are all active
(high). -/
def sevenActive (samples : List Bool) (n : Nat) : Prop :=
  n ≤ samples.length ∧ List.replicate 7 true <:+ samples.take n

instance (samples : List Bool) (n : Nat) : Decidable (sevenActive samples n) := by
  unfold sevenActive; infer_instance

/-! ## Concrete inputs -/

/-- Some register contents at power up. -/
def por0 : State :=
  { pc := PC.UB, FR6out := true, RaiseLower_output := true, TotemControl_output := true,
    PowerPermissive_output := true, LED1 := false, LiftPower_output := false, HV := 7,
    button_history_speedUP := 1, button_history_speedDN := 2,
    button_history_UserPowerOn_input := 3, desiredSpeedCtr := 200, actualSpeedPulses := 5,
    CCPR1L := 255, DC1B := 3, PR2 := 8, GIE := true, PEIE := true, C1IE := false,
    C1IF := true, TMR1IE := false, TMR1IF := true, C1ON := true, TMR1ON := true, times := 9,
    period := 9, p := 9 }

/-- A foreground statement executed while the converter result is 0x300, the
user power line is at `user` and the speed lines are at `up` and `dn`. -/
def fgWith (user up dn : Bool) : Event :=
  Event.fg { ADRESL := 0x00, ADRESH := 0x03, UserPowerOn_input := user,
             SpeedUp_input := up, SpeedDown_input := dn }

/-- A foreground statement executed while the converter result is 0x214. -/
def fgAtThreshold : Event :=
  Event.fg { ADRESL := 0x14, ADRESH := 0x02, UserPowerOn_input := true,
             SpeedUp_input := true, SpeedDown_input := true }

/-- Lines 229-277 with a first reading of 0x300: the supply wait loop ends at
once and `PowerPermissive_output` is set. -/
def supplyMet : List Event := List.replicate 9 (fgWith true true true)

/-- Seven passes through the consent wait loop with the line high, the final
loop test, and lines 314 and 317. -/
def consentGiven : List Event := List.replicate 24 (fgWith true true true)

/-- One pass through the Running loop (test and the 9 statements of the body)
with the user power line high and the speed lines at `up` and `dn`. -/
def runPass (up dn : Bool) : List Event := List.replicate 10 (fgWith true up dn)

/-- The Running loop passes of one press of the speed-up button: released for
one pass, held (low) for seven. -/
def pressUp : List Event :=
  runPass true true ++ (List.replicate 7 (runPass false true)).flatten

/-- The Running loop passes of one press of the speed-down button. -/
def pressDown : List Event :=
  runPass true true ++ (List.replicate 7 (runPass true false)).flatten

/-- The end-to-end scenario: supply above the threshold, 7 active user-power
polls, 3 up presses, 1 down press. -/
def scenario : List Event :=
  supplyMet ++ consentGiven ++ pressUp ++ pressUp ++ pressUp ++ pressDown

/-- The scenario followed by a Running loop test that finds the user power
line low. -/
def stopRequested : List Event :=
  scenario ++ [fgWith false true true]

/-- The five statements of the shutdown pass and the first statements of the
terminal loop, with interrupts in between. -/
def shutdownPass : List Event :=
  [fgWith false true true, Event.c1Edge, Event.isr, fgWith false true true,
   fgWith false true true, Event.tmr1Overflow, fgWith false true true, Event.isr,
   fgWith true false false, fgWith true true true, Event.c1Edge, Event.isr,
   fgWith true true true, fgWith true true true]

/-! ## Invariants -/

/-- The speed step is at most 11 and no read outside the table has happened. -/
def CtrInv (s : State) : Prop := s.desiredSpeedCtr ≤ 11 ∧ s.pc ≠ PC.UB

/-- Where a location lies with respect to the supply wait loop: 0 before the
loop and inside its body, 1 at the loop test (line 271), 2 between the loop and
the write of line 277, 3 after that write. -/
def supplyStage : PC → Nat
  | .L229 | .L232 | .L233 | .L236 | .L237 | .L270 | .L272 | .L273 => 0
  | .L271 => 1
  | .L276 | .L277 => 2
  | _ => 3

/-- Some value of the log is at or above `TestVoltage`. -/
def thresholdSeen (log : List Int) : Prop := ∃ v ∈ log, TestVoltage ≤ v

/-- Invariant of the supply wait: `log` holds the values `CheckHV` returned so
far. -/
def SupplyInv (s : State) (log : List Int) : Prop :=
  (supplyStage s.pc ≤ 2 → s.PowerPermissive_output = LOW) ∧
  (supplyStage s.pc = 1 → TestVoltage < s.HV → thresholdSeen log) ∧
  (2 ≤ supplyStage s.pc → thresholdSeen log)

/-- Where a location lies with respect to the two wait loops: 0 up to the end
of the supply wait loop, 1 from there to the end of the consent wait loop, 2
between that loop and the write of line 317, 3 after that write. -/
def consentStage : PC → Nat
  | .L229 | .L232 | .L233 | .L236 | .L237 | .L270 | .L271 | .L272 | .L273 => 0
  | .L276 | .L277 | .L298 | .L300 | .L301 => 1
  | .L314 | .L317 => 2
  | _ => 3

/-- The supply wait loop has ended during the run `es` from `s0`: an initial
part of `es` leads to line 276 with `HV` above `TestVoltage`. -/
def SupplyValidated (s0 : State) (es : List Event) : Prop :=
  ∃ es1 es2, es = es1 ++ es2 ∧ (exec s0 es1).pc = PC.L276 ∧ TestVoltage < (exec s0 es1).HV

/-- The supply wait loop and, after it, the consent wait loop have ended during
the run `es` from `s0`: the second at line 314 with the user-power history at
`0b01111111`. -/
def ConsentConfirmed (s0 : State) (es : List Event) : Prop :=
  ∃ es1 es2 es3, es = es1 ++ es2 ++ es3 ∧
    (exec s0 es1).pc = PC.L276 ∧ TestVoltage < (exec s0 es1).HV ∧
    (exec s0 (es1 ++ es2)).pc = PC.L314 ∧
    (exec s0 (es1 ++ es2)).button_history_UserPowerOn_input = 0b01111111

/-- Invariant of the start-up sequence, for `V` the supply being validated and
`C` the consent being confirmed. -/
def TotemInv (s : State) (V C : Prop) : Prop :=
  (consentStage s.pc ≤ 2 → s.TotemControl_output = LOW) ∧
  (consentStage s.pc = 1 → V) ∧
  (2 ≤ consentStage s.pc → C)

/-- The number of foreground statements from a location of the shutdown pass
(lines 430-434) to the terminal loop: 0 inside the terminal loop, 6 at every
location before the shutdown pass. -/
def toTerminal : PC → Nat
  | .L430 => 5
  | .L431 => 4
  | .L432 => 3
  | .L433 => 2
  | .L434 => 1
  | .L442 | .F453 | .F454 | .F455 | .F457 | .F458 | .F459 | .F460 | .F461 | .F462
  | .F463 | .F464 | .F465 | .F466 => 0
  | _ => 6

/-- Invariant of the shutdown pass: what the statements executed so far have
written. -/
def ShutdownInv (s : State) : Prop :=
  (toTerminal s.pc ≤ 4 → s.DC1B = 0) ∧
  (toTerminal s.pc ≤ 3 → s.CCPR1L = 0) ∧
  (toTerminal s.pc ≤ 2 → s.TotemControl_output = LOW) ∧
  (toTerminal s.pc ≤ 1 → s.PowerPermissive_output = LOW)

/-- Where a location lies with respect to the duty writes: 0 before the Running
loop, 1 at the Running loop test (line 325), 2 between the two register writes
(line 410), 3 elsewhere. -/
def dutyStage : PC → Nat
  | .L229 | .L232 | .L233 | .L236 | .L237 | .L270 | .L271 | .L272 | .L273 | .L276 | .L277
  | .L298 | .L300 | .L301 | .L314 | .L317 => 0
  | .L325 => 1
  | .L410 => 2
  | _ => 3

/-- Invariant of the duty registers. -/
def DutyInv (s : State) : Prop :=
  s.desiredSpeedCtr ≤ 11 ∧
  (dutyStage s.pc = 0 → s.desiredSpeedCtr = 0 ∧ s.CCPR1L = 0 ∧ s.DC1B = 0) ∧
  (dutyStage s.pc = 1 → desiredSpeed[s.desiredSpeedCtr]? = some (s.CCPR1L * 4 + s.DC1B)) ∧
  (dutyStage s.pc = 2 → ∃ v, desiredSpeed[s.desiredSpeedCtr]? = some v ∧ s.DC1B = v &&& 3)

/-- Running loop passes from the entry state: the scenario up to the consent,
then `n` passes with the speed-up button held (low) from the first pass on. -/
def heldFromStart (n : Nat) : List Event :=
  supplyMet ++ consentGiven ++ (List.replicate n (runPass false true)).flatten

/-- The foreground statements of the consent wait loop for the samples `bs`: for
each sample the loop test, the shift and the or that reads the sample. -/
def consentPolls (bs : List Bool) : List Event :=
  (bs.map (fun b => List.replicate 3 (fgWith b true true))).flatten

/-- Invariant of the user-power history: inside the loop body the history is
not at the exit pattern, and after the shift its low bit is clear. -/
def ConsentHistInv (s : State) : Prop :=
  s.button_history_UserPowerOn_input < 256 ∧
  s.button_history_UserPowerOn_input ≠ 0b11111111 ∧
  (s.pc = PC.L300 → s.button_history_UserPowerOn_input ≠ 0b01111111) ∧
  (s.pc = PC.L301 → s.button_history_UserPowerOn_input % 2 = 0 ∧
    s.button_history_UserPowerOn_input ≠ 0b11111110)

/-- The five statements of the shutdown pass (lines 430-434), run after
`stopRequested`. -/
def shutdownStatements : List Event := List.replicate 5 (fgWith false true true)

/-! ## The pulse counter -/

/-- An edge event delivered and handled: the comparator 1 flag is raised and
`Isr` runs. -/
def edgeHandled : List Event := [Event.c1Edge, Event.isr]

/-- The Timer 1 elapsed event delivered and handled: the timer 1 flag is raised
and `Isr` runs. -/
def elapsedHandled : List Event := [Event.tmr1Overflow, Event.isr]

/-- The event `edgeHandled`, `n` times over. -/
def edges (n : Nat) : List Event := (List.replicate n edgeHandled).flatten

/-- The step `e` from `s` is an invocation of `Isr` that finds the comparator
source enabled and pending, that is, one that executes `++actualSpeedPulses`. -/
def countsEdge (s : State) (e : Event) : Bool :=
  match e with
  | .isr => s.C1IE && s.C1IF
  | _ => false

/-- The number of invocations of `Isr` during the events `es` from `s` that
execute `++actualSpeedPulses`. -/
def edgeCount : State → List Event → Nat
  | _, [] => 0
  | s, e :: es => (if countsEdge s e then 1 else 0) + edgeCount (step s e) es

/-- A window has just started: the counter is 0, both interrupt sources are
enabled and none is pending (the state `doSetup` and the initialiser of
`actualSpeedPulses` leave). -/
def windowOpen (s : State) : Prop :=
  s.actualSpeedPulses = 0 ∧ s.C1IE = HIGH ∧ s.TMR1IE = HIGH ∧ s.C1IF = LOW ∧ s.TMR1IF = LOW

instance (s : State) : Decidable (windowOpen s) := by
  unfold windowOpen; infer_instance

/-- A state with the comparator source enabled and pending and the counter at
the largest value of a 16 bit `int`. -/
def counterAtMax : State :=
  { por0 with C1IE := HIGH, C1IF := HIGH, TMR1IE := HIGH, TMR1IF := LOW,
              actualSpeedPulses := 32767 }

/-- Header, line 54: "The spinning disk on the motor has 36 openings". -/
def diskOpenings : Nat := 36

/-- Header, line 56: the measuring window of 0.1 s, in seconds. -/
def windowSeconds : ℚ := 1 / 10

/-- The idealized pulse count of one window at `rpm` revolutions per minute:
`RPM * F * W / 60`. -/
def idealPulseCount (rpm : ℚ) : ℚ := rpm * diskOpenings * windowSeconds / 60

/-- Header table, column B (design pulse count), rows off, 1, ..., 11. -/
def designPulseCount : List Nat := [0, 60, 81, 102, 123, 144, 165, 186, 207, 228, 249, 270]

/-- Header table, column F (design N in RPM), rows off, 1, ..., 11. -/
def designRPM : List Nat :=
  [0, 1000, 1350, 1700, 2050, 2400, 2750, 3100, 3450, 3800, 4150, 4500]

/-- The design speed of step `i` for `i` in 1..11: 1000 RPM and 350 RPM more
for each further step (header, lines 23-32). -/
def stepRPM (i : Nat) : ℚ := 1000 + 350 * ((i : ℚ) - 1)

/-- Header, lines 34-39 and 49: the duty cycle ratio at `rpm`,
`(180/320) * (rpm/4700)`. -/
def dutyCycleRatio (rpm : ℚ) : ℚ := (180 / 320) * (rpm / 4700)

/-- Header table, column H: the number of duty steps of one PWM period,
`4 * (PR2 + 1)`. -/
def pwmResolution (PR2 : Nat) : ℚ := 4 * ((PR2 : ℚ) + 1)

/-- Rounding to the nearest integer. -/
def roundNearest (q : ℚ) : Int := Int.floor (q + 1 / 2)

/-- The duty ratio a table entry commands: entry over `4 * (PR2 + 1)`. -/
def commandedRatio (PR2 entry : Nat) : ℚ := (entry : ℚ) / pwmResolution PR2

/-- The number whose binary digits are the samples `zs`, oldest first (the
newest sample is the low bit). -/
def bitsOf (zs : List Bool) : Nat :=
  zs.foldl (fun a b => 2 * a + b.toNat) 0

/-- Running loop passes with the speed-up button held (low), the speed-down
button released (high) and the user power line high: `d` passes. -/
def heldPasses (d : Nat) : List Event :=
  (List.replicate d (runPass false true)).flatten

/-- The samples of two presses of a button from idle: held for 7 polls,
released for 1, held for 7. -/
def twoPresses : List Bool :=
  List.replicate 7 false ++ [true] ++ List.replicate 7 false

/-! ## The ADC notes of the source (lines 117-136) -/

/-- The reading of a 10 bit converter for `volts` measured against the
reference `vref`: `1023 * volts / vref` (lines 123-130). -/
def adcReading (volts vref : ℚ) : ℚ := 1023 * volts / vref

/-- A foreground statement executed while the converter result is 0x1D6, one
above the value the ADC notes document as the threshold. -/
def fgAboveDocumented : Event :=
  Event.fg { ADRESL := 0xD6, ADRESH := 0x01, UserPowerOn_input := true,
             SpeedUp_input := true, SpeedDown_input := true }

/-! ## Observers of `FlashLED1` -/

/-- What a statement of `FlashLED1` does to the LED or to the clock. -/
inductive LedAct where
  /-- `LED1 = HIGH`, the LED goes off (lines 457 and 466). -/
  | off
  /-- `LED1 = LOW`, the LED goes on (line 461). -/
  | on
  /-- `__delay_ms(50)` (lines 458 and 462). -/
  | delay
  deriving DecidableEq, Repr

/-- The LED action of the step `e` from `s`, if it is one. -/
def ledOf (s : State) (e : Event) : List LedAct :=
  match e, s.pc with
  | .fg _, .F457 => [LedAct.off]
  | .fg _, .F466 => [LedAct.off]
  | .fg _, .F461 => [LedAct.on]
  | .fg _, .F458 => [LedAct.delay]
  | .fg _, .F462 => [LedAct.delay]
  | _, _ => []

/-- The LED actions during the events `es` from `s`, in order. -/
def ledTrace : State → List Event → List LedAct
  | _, [] => []
  | s, e :: es => ledOf s e ++ ledTrace (step s e) es

/-- The state at the first statement of `FlashLED1` when it is called with the
arguments `times` and `period`. -/
def callFlashLED1 (s : State) (times period : Nat) : State :=
  { s with times := times, period := period, pc := PC.F453 }

/-- The next `n` foreground statements (the statements of `FlashLED1` read no
pin). -/
def fgs (n : Nat) : List Event := List.replicate n (fgWith true true true)

/-- The number of passes of a loop `do { ... } while (--x);` entered with the
`uint8_t` value `x`: `x` passes, and 256 when `x` is 0. -/
def doWhilePasses (x : Nat) : Nat := if x = 0 then 256 else x

/-- Source, line 454: `if (times > 5) {times = 5;}`. -/
def clampTimes (times : Nat) : Nat := if times > 5 then 5 else times

/-- Source, line 455: `if (period > 10) {period = 10;}`. -/
def clampPeriod (period : Nat) : Nat := if period > 10 then 10 else period

/-- The LED actions of one later pass of the outer loop of `FlashLED1`, with
`q` delays in each phase. -/
def flashBlock (q : Nat) : List LedAct :=
  [LedAct.off] ++ List.replicate q LedAct.delay ++ [LedAct.on] ++ List.replicate q LedAct.delay

/-- The LED actions of one call `FlashLED1(times, period)` as the code runs
it: the first LED-off phase is timed by the unclamped `period`, every other
phase by the clamped one; the number of flashes is what the clamped `times`
stands for in the `do ... while (--times)` loop. -/
def flashActs (times period : Nat) : List LedAct :=
  [LedAct.off] ++ List.replicate (doWhilePasses period) LedAct.delay ++ [LedAct.on] ++
    List.replicate (doWhilePasses (clampPeriod period)) LedAct.delay ++
    (List.replicate (doWhilePasses (clampTimes times) - 1)
      (flashBlock (doWhilePasses (clampPeriod period)))).flatten ++
    [LedAct.off]

/-- The number of statements one call `FlashLED1(times, period)` executes. -/
def flashSteps (times period : Nat) : Nat :=
  3 + (2 * doWhilePasses period + 2 * doWhilePasses (clampPeriod period) + 4) +
    ((doWhilePasses (clampTimes times) - 1) * (4 * doWhilePasses (clampPeriod period) + 5) + 1)
    + 1


/-! ## The Running loop -/

/-- The locations of the Running loop: its test (line 325) and the statements
of its body (lines 384-410). -/
def inRunning : PC → Bool
  | .L325 | .L384 | .L387 | .L388 | .L389 | .L390 | .L392 | .L397 | .L408 | .L410 => true
  | _ => false

/-- Where a location lies with respect to the writes that raise the two drive
outputs: 1 after the write of line 277 and up to line 317, 2 after the write of
line 317 and up to the end of the Running loop, 0 elsewhere. -/
def driveStage : PC → Nat
  | .L298 | .L300 | .L301 | .L314 | .L317 => 1
  | .L325 | .L384 | .L387 | .L388 | .L389 | .L390 | .L392 | .L397 | .L408 | .L410 => 2
  | _ => 0

/-- Invariant of the drive outputs up to the end of the Running loop. -/
def RunningInv (s : State) : Prop :=
  (1 ≤ driveStage s.pc → s.PowerPermissive_output = HIGH) ∧
  (driveStage s.pc = 2 → s.TotemControl_output = HIGH)

/-- The sample of `UserPowerOn_input` the step `e` from `s` reads, if the step
is the test of the Running loop (line 325). -/
def loopCheckOf (s : State) (e : Event) : List Bool :=
  match e, s.pc with
  | .fg i, .L325 => [i.UserPowerOn_input]
  | _, _ => []

/-- The samples of `UserPowerOn_input` read by the tests of the Running loop
during the events `es` from `s`, in order. -/
def loopChecks : State → List Event → List Bool
  | _, [] => []
  | s, e :: es => loopCheckOf s e ++ loopChecks (step s e) es

/-- The pins with the user power line high and both speed buttons held (low),
the converter result at 0x300. -/
def bothHeld : Pins :=
  { ADRESL := 0x00, ADRESH := 0x03, UserPowerOn_input := true,
    SpeedUp_input := false, SpeedDown_input := false }

/-- The scenario up to the consent, then six passes of the Running loop with
both speed buttons held. -/
def bothHeldFromStart : List Event :=
  supplyMet ++ consentGiven ++ List.replicate 60 (Event.fg bothHeld)

theorem exec_nil (s : State) : exec s [] = s := rfl

theorem exec_cons (s : State) (e : Event) (es : List Event) :
    exec s (e :: es) = exec (step s e) es := rfl

theorem exec_append (s : State) (es fs : List Event) :
    exec s (es ++ fs) = exec (exec s es) fs := by
  simp [exec, List.foldl_append]

theorem exec_snoc (s : State) (es : List Event) (e : Event) :
    exec s (es ++ [e]) = step (exec s es) e := by
  simp [exec, List.foldl_append]

/-- A property every step keeps holds after any run. -/
theorem exec_invariant (P : State → Prop) (hstep : ∀ s e, P s → P (step s e)) :
    ∀ (es : List Event) (s : State), P s → P (exec s es) := by
  intro es
  induction es with
  | nil => intro s h; exact h
  | cons e es ih => intro s h; exact ih (step s e) (hstep s e h)

/-! ### What `Isr` leaves alone -/

@[simp] theorem Isr_pc (s : State) : (Isr s).pc = s.pc := by
  unfold Isr returnFromInterrupt IsrBody; simp only; split <;> split <;> rfl

@[simp] theorem Isr_TotemControl_output (s : State) :
    (Isr s).TotemControl_output = s.TotemControl_output := by
  unfold Isr returnFromInterrupt IsrBody; simp only; split <;> split <;> rfl

@[simp] theorem Isr_PowerPermissive_output (s : State) :
    (Isr s).PowerPermissive_output = s.PowerPermissive_output := by
  unfold Isr returnFromInterrupt IsrBody; simp only; split <;> split <;> rfl

@[simp] theorem Isr_CCPR1L (s : State) : (Isr s).CCPR1L = s.CCPR1L := by
  unfold Isr returnFromInterrupt IsrBody; simp only; split <;> split <;> rfl

@[simp] theorem Isr_DC1B (s : State) : (Isr s).DC1B = s.DC1B := by
  unfold Isr returnFromInterrupt IsrBody; simp only; split <;> split <;> rfl

@[simp] theorem Isr_desiredSpeedCtr (s : State) :
    (Isr s).desiredSpeedCtr = s.desiredSpeedCtr := by
  unfold Isr returnFromInterrupt IsrBody; simp only; split <;> split <;> rfl

@[simp] theorem Isr_HV (s : State) : (Isr s).HV = s.HV := by
  unfold Isr returnFromInterrupt IsrBody; simp only; split <;> split <;> rfl

@[simp] theorem Isr_button_history_UserPowerOn_input (s : State) :
    (Isr s).button_history_UserPowerOn_input = s.button_history_UserPowerOn_input := by
  unfold Isr returnFromInterrupt IsrBody; simp only; split <;> split <;> rfl

@[simp] theorem Isr_button_history_speedUP (s : State) :
    (Isr s).button_history_speedUP = s.button_history_speedUP := by
  unfold Isr returnFromInterrupt IsrBody; simp only; split <;> split <;> rfl

@[simp] theorem Isr_button_history_speedDN (s : State) :
    (Isr s).button_history_speedDN = s.button_history_speedDN := by
  unfold Isr returnFromInterrupt IsrBody; simp only; split <;> split <;> rfl

/-! ### The speed step stays inside the table -/

theorem desiredSpeed_lookup (c : Nat) (h : c ≤ 11) : ∃ v, desiredSpeed[c]? = some v := by
  interval_cases c <;> exact ⟨_, rfl⟩

theorem onSpeedUp_le (h c : Nat) (hc : c ≤ 11) : onSpeedUp h c ≤ 11 := by
  unfold onSpeedUp inc8
  split_ifs <;> omega

theorem onSpeedDown_le (h c : Nat) (hc : c ≤ 11) : onSpeedDown h c ≤ 11 := by
  unfold onSpeedDown dec8
  split_ifs <;> omega

theorem fgStep_ctrInv (s : State) (i : Pins) (h : CtrInv s) : CtrInv (fgStep s i) := by
  obtain ⟨hc, hp⟩ := h
  obtain ⟨v, hv⟩ := desiredSpeed_lookup _ hc
  have hu := onSpeedUp_le s.button_history_speedUP _ hc
  have hd := onSpeedDown_le s.button_history_speedDN _ hc
  unfold CtrInv fgStep
  split <;> (try split) <;> simp_all

theorem step_ctrInv (s : State) (e : Event) (h : CtrInv s) : CtrInv (step s e) := by
  cases e with
  | fg i => exact fgStep_ctrInv s i h
  | isr => simpa [CtrInv, step] using h
  | c1Edge => exact h
  | tmr1Overflow => exact h

theorem start_ctrInv (por : State) : CtrInv (start por) := by
  simp [CtrInv, start, doSetup, entry, startPWM, setupactualSpeedPulses]

theorem exec_ctrInv (por : State) (es : List Event) : CtrInv (exec (start por) es) :=
  exec_invariant CtrInv step_ctrInv es _ (start_ctrInv por)

/-- C4: in every state `main` reaches, under every sequence of pin samples and
interrupts, `desiredSpeedCtr` is at most 11, the read `desiredSpeed[desiredSpeedCtr]`
is inside the 12 entries and no out-of-bounds read has happened; the counter
saturates: 20 up press events from 0 give 11, an up press at 11 gives 11, a
down press at 0 gives 0. -/
theorem desiredSpeedCtr_stays_in_table (por : State) (es : List Event) :
    (exec (start por) es).desiredSpeedCtr ≤ 11 ∧
    (∃ v, desiredSpeed[(exec (start por) es).desiredSpeedCtr]? = some v) ∧
    (exec (start por) es).pc ≠ PC.UB ∧
    (onSpeedUp 0b10000000)^[20] 0 = 11 ∧
    onSpeedUp 0b10000000 11 = 11 ∧
    onSpeedDown 0b10000000 0 = 0 := by
  have h := exec_ctrInv por es
  exact ⟨h.1, desiredSpeed_lookup _ h.1, h.2, by decide, by decide, by decide⟩

/-! ### The duty table -/

/-- C8: `desiredSpeed` has 12 entries, entry 0 is 0, the entries are
non-decreasing in the step, and each entry is larger than the one before. -/
theorem desiredSpeed_monotone :
    desiredSpeed.length = 11 + 1 ∧
    desiredSpeed[0]? = some 0 ∧
    (∀ i j : Fin desiredSpeed.length, i ≤ j → desiredSpeed.get i ≤ desiredSpeed.get j) ∧
    (∀ i j : Fin desiredSpeed.length, i.val + 1 = j.val →
      desiredSpeed.get i < desiredSpeed.get j) := by
  refine ⟨rfl, rfl, ?_, ?_⟩ <;> decide

theorem desiredSpeed_entry (c v : Nat) (h : desiredSpeed[c]? = some v) :
    v ≤ 255 ∧ ((v >>> 2) % 256) * 4 + (v &&& 3) = v ∧ (v >>> 2) % 256 = v >>> 2 ∧
      v &&& 3 < 4 := by
  have hm : v ∈ desiredSpeed := List.getElem?_mem h
  simp only [desiredSpeed, List.mem_cons, List.mem_singleton, List.not_mem_nil, or_false] at hm
  rcases hm with h | h | h | h | h | h | h | h | h | h | h | h <;> subst h <;> decide

/-- C9: when the two register writes of lines 408 and 410 run for a step inside
the table, with `v` the entry of that step, `CCPR1L` receives `v >> 2`, which
fits in 8 bits, `DC1B` receives `v & 3`, which fits in 2 bits, and
`CCPR1L * 4 + DC1B = v`. -/
theorem duty_register_pair_recombines (s : State) (i1 i2 : Pins) (v : Nat)
    (hpc : s.pc = PC.L408) (hv : desiredSpeed[s.desiredSpeedCtr]? = some v) :
    (exec s [Event.fg i1, Event.fg i2]).CCPR1L = v >>> 2 ∧
    (exec s [Event.fg i1, Event.fg i2]).DC1B = v &&& 3 ∧
    (exec s [Event.fg i1, Event.fg i2]).CCPR1L < 256 ∧
    (exec s [Event.fg i1, Event.fg i2]).DC1B < 4 ∧
    (exec s [Event.fg i1, Event.fg i2]).CCPR1L * 4 + (exec s [Event.fg i1, Event.fg i2]).DC1B
      = v := by
  obtain ⟨h255, hsum, hhigh, hlow⟩ := desiredSpeed_entry _ _ hv
  have he : exec s [Event.fg i1, Event.fg i2] =
      { s with DC1B := dutyLow v, CCPR1L := dutyHigh v, pc := PC.L325 } := by
    simp [exec, step, fgStep, hpc, hv]
  rw [he]
  exact ⟨hhigh, rfl, Nat.mod_lt _ (by norm_num), hlow, hsum⟩

set_option maxRecDepth 1000000 in
/-- Witness of C9: the two writes at the end of the scenario pass for step 2. -/
theorem duty_register_pair_recombines_witness :
    (exec (exec (start por0) (scenario ++ List.replicate 8 (fgWith true true true)))
        [fgWith true true true, fgWith true true true]).CCPR1L * 4 +
      (exec (exec (start por0) (scenario ++ List.replicate 8 (fgWith true true true)))
        [fgWith true true true, fgWith true true true]).DC1B = 0x42 :=
  (duty_register_pair_recombines
    (exec (start por0) (scenario ++ List.replicate 8 (fgWith true true true)))
    _ _ 0x42 (by decide) (by decide)).2.2.2.2
/-! ### The supply wait -/

theorem thresholdSeen_append (log more : List Int) (h : thresholdSeen log) :
    thresholdSeen (log ++ more) := by
  obtain ⟨v, hv, hle⟩ := h
  exact ⟨v, List.mem_append_left _ hv, hle⟩

theorem thresholdSeen_snoc (log : List Int) (v : Int) (h : TestVoltage < v) :
    thresholdSeen (log ++ [v]) :=
  ⟨v, by simp, le_of_lt h⟩

theorem fgStep_supplyInv (s : State) (i : Pins) (log : List Int) (h : SupplyInv s log) :
    SupplyInv (fgStep s i) (log ++ hvOf s (Event.fg i)) := by
  obtain ⟨h1, h2, h3⟩ := h
  have ha := fun more => thresholdSeen_append log more
  have hs := thresholdSeen_snoc log (CheckHV i.ADRESL i.ADRESH)
  unfold SupplyInv fgStep hvOf
  split <;> (try split) <;> simp_all [supplyStage]

theorem step_supplyInv (s : State) (e : Event) (log : List Int) (h : SupplyInv s log) :
    SupplyInv (step s e) (log ++ hvOf s e) := by
  cases e with
  | fg i => exact fgStep_supplyInv s i log h
  | isr => simpa [SupplyInv, step, hvOf] using h
  | c1Edge => simpa [SupplyInv, step, hvOf] using h
  | tmr1Overflow => simpa [SupplyInv, step, hvOf] using h

theorem exec_supplyInv (es : List Event) :
    ∀ (s : State) (log : List Int), SupplyInv s log →
      SupplyInv (exec s es) (log ++ hvReturned s es) := by
  induction es with
  | nil => intro s log h; simpa [hvReturned, exec_nil] using h
  | cons e es ih =>
    intro s log h
    have := ih (step s e) (log ++ hvOf s e) (step_supplyInv s e log h)
    simpa [hvReturned, exec_cons, List.append_assoc] using this

theorem start_supplyInv (por : State) : SupplyInv (start por) [] := by
  simp [SupplyInv, start, doSetup, entry, startPWM, setupactualSpeedPulses, supplyStage]

/-- C1: in every execution of `main`, under every sequence of pin samples,
converter results and interrupts, whenever `PowerPermissive_output` is HIGH one
of the calls of `CheckHV` made so far has returned a value at or above
`TestVoltage`; until then the output is LOW. -/
theorem powerPermissive_high_only_after_threshold_reading (por : State) (es : List Event)
    (h : (exec (start por) es).PowerPermissive_output = HIGH) :
    ∃ v ∈ hvReturned (start por) es, TestVoltage ≤ v := by
  have hinv := exec_supplyInv es (start por) [] (start_supplyInv por)
  obtain ⟨h1, _, h3⟩ := hinv
  have hstage : 2 ≤ supplyStage (exec (start por) es).pc := by
    by_contra hlt
    have := h1 (by omega)
    rw [h] at this
    exact absurd this (by decide)
  simpa [thresholdSeen] using h3 hstage

set_option maxRecDepth 1000000 in
/-- Witness of C1: after the 9 statements of `supplyMet` the output is HIGH and
the reading 0x300 has been returned. -/
theorem powerPermissive_high_only_after_threshold_reading_witness :
    (exec (start por0) supplyMet).PowerPermissive_output = HIGH ∧
    ∃ v ∈ hvReturned (start por0) supplyMet, TestVoltage ≤ v :=
  ⟨by decide, powerPermissive_high_only_after_threshold_reading por0 supplyMet (by decide)⟩
/-! ### The drive enable -/

theorem supplyValidated_snoc (s0 : State) (es : List Event) (e : Event)
    (h : SupplyValidated s0 es) : SupplyValidated s0 (es ++ [e]) := by
  obtain ⟨es1, es2, he, h1, h2⟩ := h
  exact ⟨es1, es2 ++ [e], by simp [he], h1, h2⟩

theorem consentConfirmed_snoc (s0 : State) (es : List Event) (e : Event)
    (h : ConsentConfirmed s0 es) : ConsentConfirmed s0 (es ++ [e]) := by
  obtain ⟨es1, es2, es3, he, h1, h2, h3, h4⟩ := h
  exact ⟨es1, es2, es3 ++ [e], by simp [he], h1, h2, h3, h4⟩

theorem fgStep_totemInv (s : State) (i : Pins) (V C V2 C2 : Prop)
    (hV : V → V2) (hC : C → C2)
    (hVnew : (fgStep s i).pc = PC.L276 → TestVoltage < (fgStep s i).HV → V2)
    (hCnew : V → (fgStep s i).pc = PC.L314 →
      (fgStep s i).button_history_UserPowerOn_input = 0b01111111 → C2)
    (h : TotemInv s V C) : TotemInv (fgStep s i) V2 C2 := by
  obtain ⟨h1, h2, h3⟩ := h
  unfold TotemInv
  unfold fgStep at hVnew hCnew ⊢
  split <;> (try split) <;> simp_all [consentStage]

theorem step_totemInv (s0 : State) (es : List Event) (e : Event)
    (h : TotemInv (exec s0 es) (SupplyValidated s0 es) (ConsentConfirmed s0 es)) :
    TotemInv (exec s0 (es ++ [e])) (SupplyValidated s0 (es ++ [e]))
      (ConsentConfirmed s0 (es ++ [e])) := by
  rw [exec_snoc]
  cases e with
  | fg i =>
    refine fgStep_totemInv _ i _ _ _ _ (supplyValidated_snoc s0 es _)
      (consentConfirmed_snoc s0 es _) ?_ ?_ h
    · intro hpc hhv
      exact ⟨es ++ [Event.fg i], [], by simp, by rw [exec_snoc]; exact hpc,
        by rw [exec_snoc]; exact hhv⟩
    · intro hval hpc hhist
      obtain ⟨es1, es2, he, h1, h2⟩ := hval
      refine ⟨es1, es2 ++ [Event.fg i], [], by simp [he], h1, h2, ?_, ?_⟩
      · rw [← List.append_assoc, ← he, exec_snoc]; exact hpc
      · rw [← List.append_assoc, ← he, exec_snoc]; exact hhist
  | isr =>
    obtain ⟨h1, h2, h3⟩ := h
    exact ⟨by simpa [step] using h1,
      fun hs => supplyValidated_snoc s0 es _ (h2 (by simpa [step] using hs)),
      fun hs => consentConfirmed_snoc s0 es _ (h3 (by simpa [step] using hs))⟩
  | c1Edge =>
    obtain ⟨h1, h2, h3⟩ := h
    exact ⟨h1, fun hs => supplyValidated_snoc s0 es _ (h2 hs),
      fun hs => consentConfirmed_snoc s0 es _ (h3 hs)⟩
  | tmr1Overflow =>
    obtain ⟨h1, h2, h3⟩ := h
    exact ⟨h1, fun hs => supplyValidated_snoc s0 es _ (h2 hs),
      fun hs => consentConfirmed_snoc s0 es _ (h3 hs)⟩

theorem exec_totemInv (por : State) (es : List Event) :
    TotemInv (exec (start por) es) (SupplyValidated (start por) es)
      (ConsentConfirmed (start por) es) := by
  induction es using List.reverseRecOn with
  | nil =>
    simp [TotemInv, exec_nil, start, doSetup, entry, startPWM, setupactualSpeedPulses,
      consentStage]
  | append_singleton es e ih => exact step_totemInv (start por) es e ih

/-- C2: in every execution of `main`, under every sequence of pin samples,
converter results and interrupts, whenever `TotemControl_output` is HIGH the
run so far splits into three parts: the first ends at line 276, where the
supply wait loop has ended with `HV` above `TestVoltage`; the first and second
together end at line 314, where the consent wait loop has ended with the
user-power history at `0b01111111`. At every point before that the output is
LOW. -/
theorem totemControl_high_only_after_supply_and_consent (por : State) (es : List Event)
    (h : (exec (start por) es).TotemControl_output = HIGH) :
    ∃ es1 es2 es3, es = es1 ++ es2 ++ es3 ∧
      (exec (start por) es1).pc = PC.L276 ∧ TestVoltage < (exec (start por) es1).HV ∧
      (exec (start por) (es1 ++ es2)).pc = PC.L314 ∧
      (exec (start por) (es1 ++ es2)).button_history_UserPowerOn_input = 0b01111111 := by
  obtain ⟨h1, _, h3⟩ := exec_totemInv por es
  have hstage : 2 ≤ consentStage (exec (start por) es).pc := by
    by_contra hlt
    have := h1 (by omega)
    rw [h] at this
    exact absurd this (by decide)
  exact h3 hstage

set_option maxRecDepth 1000000 in
/-- Witness of C2: at the end of the scenario the drive enable is HIGH. -/
theorem totemControl_high_only_after_supply_and_consent_witness :
    (exec (start por0) scenario).TotemControl_output = HIGH ∧
    ∃ es1 es2 es3, scenario = es1 ++ es2 ++ es3 ∧
      (exec (start por0) es1).pc = PC.L276 ∧ TestVoltage < (exec (start por0) es1).HV ∧
      (exec (start por0) (es1 ++ es2)).pc = PC.L314 ∧
      (exec (start por0) (es1 ++ es2)).button_history_UserPowerOn_input = 0b01111111 :=
  ⟨by decide, totemControl_high_only_after_supply_and_consent por0 scenario (by decide)⟩
/-! ### Shutdown and the terminal loop -/

theorem inTerminal_iff (pc : PC) : inTerminal pc = true ↔ toTerminal pc = 0 := by
  cases pc <;> simp [inTerminal, toTerminal]

theorem fgStep_shutdownInv (s : State) (i : Pins) (h : ShutdownInv s) :
    ShutdownInv (fgStep s i) := by
  obtain ⟨h1, h2, h3, h4⟩ := h
  unfold ShutdownInv fgStep
  split <;> (try split) <;> simp_all [toTerminal]

theorem step_shutdownInv (s : State) (e : Event) (h : ShutdownInv s) :
    ShutdownInv (step s e) := by
  cases e with
  | fg i => exact fgStep_shutdownInv s i h
  | isr => simpa [ShutdownInv, step] using h
  | c1Edge => exact h
  | tmr1Overflow => exact h

theorem start_shutdownInv (por : State) : ShutdownInv (start por) := by
  simp [ShutdownInv, start, doSetup, entry, startPWM, setupactualSpeedPulses, toTerminal]

theorem fgStep_toTerminal (s : State) (i : Pins) (h : toTerminal s.pc ≤ 5) :
    toTerminal (fgStep s i).pc = toTerminal s.pc - 1 := by
  unfold fgStep
  split <;> (try split) <;> simp_all [toTerminal]

theorem exec_toTerminal (es : List Event) :
    ∀ s : State, toTerminal s.pc ≤ 5 →
      toTerminal (exec s es).pc = toTerminal s.pc - fgCount es := by
  induction es with
  | nil => intro s _; simp [exec_nil, fgCount]
  | cons e es ih =>
    intro s h
    rw [exec_cons]
    cases e with
    | fg i =>
      have h1 := fgStep_toTerminal s i h
      have h2 := ih (fgStep s i) (by omega)
      simp only [step, fgCount]
      omega
    | isr =>
      have h2 := ih (Isr s) (by simpa using h)
      simpa [step, fgCount] using h2
    | c1Edge => exact ih _ h
    | tmr1Overflow => exact ih _ h

theorem shutdownInv_driveOff (s : State) (h : ShutdownInv s) (ht : inTerminal s.pc = true) :
    driveOff s := by
  obtain ⟨h1, h2, h3, h4⟩ := h
  have h0 := (inTerminal_iff _).1 ht
  exact ⟨h2 (by omega), h1 (by omega), h3 (by omega), h4 (by omega)⟩

/-- C3: once the Running loop has ended (line 430 is reached), then after any
further events, interrupts included: when 5 foreground statements have run the
terminal loop has been entered; whenever the program is in the terminal loop
(its entry included) the PWM duty registers are 0 and `TotemControl_output` and
`PowerPermissive_output` are LOW; and from there every continuation stays in
the terminal loop with the duty at 0 and both outputs LOW. -/
theorem shutdown_pass_then_terminal_loop (por : State) (es es2 : List Event)
    (hend : (exec (start por) es).pc = PC.L430) :
    (5 ≤ fgCount es2 → inTerminal (exec (start por) (es ++ es2)).pc = true) ∧
    (inTerminal (exec (start por) (es ++ es2)).pc = true →
      driveOff (exec (start por) (es ++ es2)) ∧
      ∀ es3, inTerminal (exec (start por) (es ++ es2 ++ es3)).pc = true ∧
        driveOff (exec (start por) (es ++ es2 ++ es3))) := by
  have hinv : ∀ fs, ShutdownInv (exec (start por) fs) := fun fs =>
    exec_invariant ShutdownInv step_shutdownInv fs _ (start_shutdownInv por)
  have hgo : ∀ fs, toTerminal (exec (start por) (es ++ fs)).pc = 5 - fgCount fs := by
    intro fs
    rw [exec_append, exec_toTerminal fs _ (by rw [hend]; decide), hend]
    rfl
  refine ⟨?_, ?_⟩
  · intro h5
    rw [inTerminal_iff, hgo]
    omega
  · intro ht
    refine ⟨shutdownInv_driveOff _ (hinv _) ht, ?_⟩
    intro es3
    have h0 := (inTerminal_iff _).1 ht
    have h3 : inTerminal (exec (start por) (es ++ es2 ++ es3)).pc = true := by
      rw [inTerminal_iff, exec_append, exec_toTerminal es3 _ (by omega), h0]
      omega
    exact ⟨h3, shutdownInv_driveOff _ (hinv _) h3⟩

set_option maxRecDepth 1000000 in
/-- Witness of C3: the scenario, the user power line going low, then the
shutdown pass with interrupts in between. -/
theorem shutdown_pass_then_terminal_loop_witness :
    (exec (start por0) stopRequested).pc = PC.L430 ∧
    inTerminal (exec (start por0) (stopRequested ++ shutdownPass)).pc = true ∧
    driveOff (exec (start por0) (stopRequested ++ shutdownPass)) :=
  ⟨by decide, by decide,
    ((shutdown_pass_then_terminal_loop por0 stopRequested shutdownPass (by decide)).2
      (by decide)).1⟩
/-! ### The duty registers follow the speed step -/

theorem fgStep_dutyInv (s : State) (i : Pins) (h : DutyInv s) : DutyInv (fgStep s i) := by
  obtain ⟨hc, h0, h1, h2⟩ := h
  have hu := onSpeedUp_le s.button_history_speedUP _ hc
  have hd := onSpeedDown_le s.button_history_speedDN _ hc
  have hent := desiredSpeed_entry s.desiredSpeedCtr
  have hz : desiredSpeed[0]? = some 0 := rfl
  unfold DutyInv fgStep
  split <;> (try split) <;> simp_all [dutyStage, dutyLow, dutyHigh]

theorem step_dutyInv (s : State) (e : Event) (h : DutyInv s) : DutyInv (step s e) := by
  cases e with
  | fg i => exact fgStep_dutyInv s i h
  | isr => simpa [DutyInv, step] using h
  | c1Edge => exact h
  | tmr1Overflow => exact h

theorem start_dutyInv (por : State) : DutyInv (start por) := by
  simp [DutyInv, start, doSetup, entry, startPWM, setupactualSpeedPulses, dutyStage]

theorem fgStep_desiredSpeedCtr (s : State) (i : Pins) :
    (fgStep s i).desiredSpeedCtr =
      if s.pc = PC.L392 then onSpeedUp s.button_history_speedUP s.desiredSpeedCtr
      else if s.pc = PC.L397 then onSpeedDown s.button_history_speedDN s.desiredSpeedCtr
      else s.desiredSpeedCtr := by
  unfold fgStep
  split <;> (try split) <;> simp_all

theorem step_saturate (s : State) (e : Event) (ps : List Press) (hc : s.desiredSpeedCtr ≤ 11) :
    saturate s.desiredSpeedCtr (pressOf s e ++ ps) = saturate (step s e).desiredSpeedCtr ps := by
  cases e with
  | fg i =>
    simp only [step, fgStep_desiredSpeedCtr]
    by_cases h1 : s.pc = PC.L392
    · simp only [pressOf, h1, if_true, onSpeedUp]
      by_cases hh : s.button_history_speedUP = 0b10000000
      · have hm : min (s.desiredSpeedCtr + 1) 11 =
            if s.desiredSpeedCtr < 11 then inc8 s.desiredSpeedCtr else s.desiredSpeedCtr := by
          unfold inc8; split_ifs <;> omega
        simp [hh, saturate, hm]
      · simp [hh]
    · by_cases h2 : s.pc = PC.L397
      · simp only [pressOf, h2, if_true, onSpeedDown]
        by_cases hh : s.button_history_speedDN = 0b10000000
        · have hm : s.desiredSpeedCtr - 1 =
              if s.desiredSpeedCtr > 0 then dec8 s.desiredSpeedCtr else s.desiredSpeedCtr := by
            unfold dec8; split_ifs <;> omega
          simp [hh, saturate, hm]
        · simp [hh]
      · have hp : pressOf s (Event.fg i) = [] := by
          unfold pressOf
          split <;> simp_all
        simp [hp, h1, h2]
  | isr => simp [step, pressOf]
  | c1Edge => simp [step, pressOf]
  | tmr1Overflow => simp [step, pressOf]

theorem step_ctr_le (s : State) (e : Event) (hc : s.desiredSpeedCtr ≤ 11) :
    (step s e).desiredSpeedCtr ≤ 11 := by
  cases e with
  | fg i =>
    have hu := onSpeedUp_le s.button_history_speedUP _ hc
    have hd := onSpeedDown_le s.button_history_speedDN _ hc
    simp only [step, fgStep_desiredSpeedCtr]
    split_ifs <;> assumption
  | isr => simpa [step] using hc
  | c1Edge => exact hc
  | tmr1Overflow => exact hc

theorem exec_saturate (es : List Event) :
    ∀ s : State, s.desiredSpeedCtr ≤ 11 →
      (exec s es).desiredSpeedCtr = saturate s.desiredSpeedCtr (pressEvents s es) := by
  induction es with
  | nil => intro s _; rfl
  | cons e es ih =>
    intro s hc
    rw [exec_cons, ih (step s e) (step_ctr_le s e hc)]
    simp only [pressEvents]
    exact (step_saturate s e _ hc).symm

set_option maxRecDepth 1000000 in
/-- C7: whenever the Running loop is at its test (before the first pass and at
the end of every pass), under every sequence of pin samples and interrupts,
the duty registers hold the table entry of the current step,
`desiredSpeed[desiredSpeedCtr] = CCPR1L * 4 + DC1B`, and `desiredSpeedCtr` is
the clamped count of the up and down press events acted on so far. In the
scenario (supply reading above the threshold, 7 active user-power polls, 3 up
presses, 1 down press) the press events are up, up, up, down, the step is 2
and the duty is `desiredSpeed[2] = 0x42`. -/
theorem duty_registers_follow_speed_step (por : State) (es : List Event)
    (hend : (exec (start por) es).pc = PC.L325) :
    desiredSpeed[(exec (start por) es).desiredSpeedCtr]? =
      some ((exec (start por) es).CCPR1L * 4 + (exec (start por) es).DC1B) ∧
    (exec (start por) es).desiredSpeedCtr = saturate 0 (pressEvents (start por) es) ∧
    pressEvents (start por0) scenario = [Press.up, Press.up, Press.up, Press.down] ∧
    (exec (start por0) scenario).pc = PC.L325 ∧
    (exec (start por0) scenario).desiredSpeedCtr = 2 ∧
    (exec (start por0) scenario).CCPR1L * 4 + (exec (start por0) scenario).DC1B = 0x42 ∧
    desiredSpeed[2]? = some 0x42 := by
  have hinv := exec_invariant DutyInv step_dutyInv es _ (start_dutyInv por)
  have hsat := exec_saturate es (start por) (start_dutyInv por).1
  refine ⟨hinv.2.2.1 (by rw [hend]; rfl), ?_, by decide, by decide, by decide, by decide, rfl⟩
  rw [hsat]
  rfl

set_option maxRecDepth 1000000 in
/-- Witness of C7: the end of the scenario is a Running loop test. -/
theorem duty_registers_follow_speed_step_witness :
    (exec (start por0) scenario).pc = PC.L325 ∧
    desiredSpeed[(exec (start por0) scenario).desiredSpeedCtr]? =
      some ((exec (start por0) scenario).CCPR1L * 4 + (exec (start por0) scenario).DC1B) :=
  ⟨by decide, (duty_registers_follow_speed_step por0 scenario (by decide)).1⟩
/-! ### The debounce of a held button -/

set_option maxRecDepth 1000000 in
/-- C5, what the code does: from the idle history `0b11111111` with the button
held (sample 0), the press pattern `0b10000000` is matched after the 7th update
and after no other of the first 8; the 8th update gives `0b00000000`. In
`main`, with the speed-up button held from the first pass of the Running loop,
`desiredSpeedCtr` is still 0 after 6 passes and is 1 after the 7th. -/
theorem held_button_matches_on_seventh_update :
    (fun h => debounceUpdate h false)^[7] 0b11111111 = 0b10000000 ∧
    (fun h => debounceUpdate h false)^[8] 0b11111111 = 0b00000000 ∧
    (∀ k : Fin 9, (fun h => debounceUpdate h false)^[k.val] 0b11111111 = 0b10000000 ↔
      k.val = 7) ∧
    (exec (start por0) (heldFromStart 6)).desiredSpeedCtr = 0 ∧
    (exec (start por0) (heldFromStart 7)).desiredSpeedCtr = 1 ∧
    (exec (start por0) (heldFromStart 7)).button_history_speedUP = 0b10000000 ∧
    (exec (start por0) (heldFromStart 8)).button_history_speedUP = 0b00000000 := by
  refine ⟨by decide, by decide, by decide, by decide, by decide, by decide, by decide⟩

/-! ### The supply wait at the threshold -/

theorem supplyWait_exit_iff (hv : Int) (rs : List Int) :
    supplyWait hv rs = some 0 ↔ TestVoltage < hv := by
  cases rs with
  | nil => simp only [supplyWait]; split_ifs with h <;> simp <;> omega
  | cons r rest =>
    simp only [supplyWait]
    split_ifs with h
    · cases hw : supplyWait r rest <;> simp <;> omega
    · simp; omega

set_option maxRecDepth 1000000 in
/-- C10, what the code does: a reading equal to `TestVoltage` (result registers
0x02, 0x14) does not end the supply wait loop. After that reading the loop test
of line 271 goes on to the delay of line 272 with `PowerPermissive_output` LOW;
the loop ends only at a later reading above the threshold. -/
theorem supply_wait_keeps_polling_at_threshold :
    CheckHV 0x14 0x02 = TestVoltage ∧
    (exec (start por0) (List.replicate 6 fgAtThreshold)).pc = PC.L271 ∧
    (exec (start por0) (List.replicate 6 fgAtThreshold)).HV = TestVoltage ∧
    (exec (start por0) (List.replicate 7 fgAtThreshold)).pc = PC.L272 ∧
    (exec (start por0) (List.replicate 7 fgAtThreshold)).PowerPermissive_output = LOW ∧
    supplyWait TestVoltage [] = none ∧
    supplyWait TestVoltage [TestVoltage, TestVoltage + 1] = some 2 ∧
    (∀ (hv : Int) (rs : List Int), supplyWait hv rs = some 0 ↔ TestVoltage < hv) := by
  refine ⟨by decide, by decide, by decide, by decide, by decide, by decide, by decide,
    supplyWait_exit_iff⟩
/-! ### The consent wait -/

set_option maxRecDepth 1000000 in
theorem lor_bit_of_even : ∀ (m : Fin 128) (b : Bool),
    (2 * m.val) ||| b.toNat = 2 * m.val + b.toNat := by
  decide

theorem debounceUpdate_eq (h : Nat) (b : Bool) :
    debounceUpdate h b = 2 * (h % 128) + b.toNat := by
  unfold debounceUpdate shl8
  have h1 : (h <<< 1) % 256 = 2 * (h % 128) := by
    rw [Nat.shiftLeft_eq]; omega
  rw [h1]
  exact lor_bit_of_even ⟨h % 128, Nat.mod_lt _ (by norm_num)⟩ b

theorem debounceUpdate_low_bits (j : Nat) (hj : j < 7) (h : Nat) (b : Bool) :
    debounceUpdate h b % 2 ^ (j + 1) = 2 ^ (j + 1) - 1 ↔
      b = true ∧ h % 2 ^ j = 2 ^ j - 1 := by
  rw [debounceUpdate_eq]
  interval_cases j <;> cases b <;> simp <;> omega

theorem concat_suffix_concat (l1 l2 : List Bool) (a b : Bool) :
    l1 ++ [a] <:+ l2 ++ [b] ↔ a = b ∧ l1 <:+ l2 := by
  rw [← List.reverse_prefix, List.reverse_append, List.reverse_append]
  simp [List.cons_prefix_cons, List.reverse_prefix]

theorem low_bits_iff_suffix (j : Nat) (hj : j ≤ 7) :
    ∀ xs : List Bool, xs.foldl debounceUpdate 0 % 2 ^ j = 2 ^ j - 1 ↔
      List.replicate j true <:+ xs := by
  induction j with
  | zero => intro xs; simp [Nat.mod_one]
  | succ j ih =>
    intro xs
    rcases List.eq_nil_or_concat xs with hnil | ⟨ys, b, hxs⟩
    · subst hnil
      have hpos : 2 ^ (j + 1) ≥ 2 := by
        have := Nat.one_le_two_pow (n := j)
        rw [pow_succ]; omega
      simp only [List.foldl_nil, Nat.zero_mod, List.suffix_nil]
      constructor
      · intro h; omega
      · intro h; simp [List.replicate_succ] at h
    · subst hxs
      rw [List.concat_eq_append, List.foldl_append, List.foldl_cons, List.foldl_nil,
        debounceUpdate_low_bits j (by omega), List.replicate_succ', concat_suffix_concat,
        ih (by omega) ys]
      constructor
      · rintro ⟨hb, hs⟩; exact ⟨hb.symm, hs⟩
      · rintro ⟨hb, hs⟩; exact ⟨hb.symm, hs⟩
theorem historyAfter_zero (h : Nat) (samples : List Bool) : historyAfter h samples 0 = h := by
  simp [historyAfter]

theorem historyAfter_cons (h : Nat) (b : Bool) (rest : List Bool) (n : Nat) :
    historyAfter h (b :: rest) (n + 1) = historyAfter (debounceUpdate h b) rest n := by
  simp [historyAfter]

theorem historyAfter_succ (samples : List Bool) :
    ∀ (h n : Nat), n < samples.length →
      ∃ b, historyAfter h samples (n + 1) = debounceUpdate (historyAfter h samples n) b := by
  induction samples with
  | nil => intro h n hn; simp at hn
  | cons a rest ih =>
    intro h n hn
    cases n with
    | zero => exact ⟨a, by simp [historyAfter]⟩
    | succ k =>
      obtain ⟨b, hb⟩ := ih (debounceUpdate h a) k (by simpa using hn)
      exact ⟨b, by rw [historyAfter_cons, historyAfter_cons, hb]⟩

/-- The loop ends after poll `n` exactly when the history is at the exit
pattern after poll `n` and was not after any earlier poll. -/
theorem consentWait_iff (samples : List Bool) :
    ∀ (h n : Nat), consentWait h samples = some n ↔
      n ≤ samples.length ∧ historyAfter h samples n = 0b01111111 ∧
        ∀ m, m < n → historyAfter h samples m ≠ 0b01111111 := by
  induction samples with
  | nil =>
    intro h n
    simp only [consentWait, historyAfter, List.take_nil, List.foldl_nil, List.length_nil]
    by_cases hh : h = 0b01111111
    · simp only [hh, ne_eq, not_true_eq_false, if_false]
      constructor
      · intro hn
        have : n = 0 := by simpa using hn.symm
        subst this
        exact ⟨le_refl _, trivial, fun m hm => absurd hm (Nat.not_lt_zero m)⟩
      · rintro ⟨hn, _, _⟩
        have : n = 0 := by omega
        rw [this]
    · simp only [ne_eq, hh, not_false_eq_true, if_true]
      constructor
      · intro hn; cases hn
      · rintro ⟨_, h2, _⟩; exact h2.elim
  | cons b rest ih =>
    intro h n
    simp only [consentWait, List.length_cons]
    by_cases hh : h = 0b01111111
    · simp only [hh, ne_eq, not_true_eq_false, if_false]
      constructor
      · intro hn
        have : n = 0 := by simpa using hn.symm
        subst this
        exact ⟨Nat.zero_le _, historyAfter_zero _ _, fun m hm => absurd hm (Nat.not_lt_zero m)⟩
      · rintro ⟨_, _, h3⟩
        cases n with
        | zero => rfl
        | succ k => exact absurd (by rw [historyAfter_zero]) (h3 0 (Nat.succ_pos k))
    · simp only [ne_eq, hh, not_false_eq_true, if_true]
      cases n with
      | zero =>
        constructor
        · intro hn
          cases hw : consentWait (debounceUpdate h b) rest <;> simp [hw] at hn
        · rintro ⟨_, h2, _⟩
          rw [historyAfter_zero] at h2
          exact absurd h2 hh
      | succ k =>
        have hmap : Option.map (fun x => x + 1) (consentWait (debounceUpdate h b) rest) =
            some (k + 1) ↔ consentWait (debounceUpdate h b) rest = some k := by
          cases hw : consentWait (debounceUpdate h b) rest <;> simp
        rw [hmap, ih (debounceUpdate h b) k, historyAfter_cons]
        constructor
        · rintro ⟨h1, h2, h3⟩
          refine ⟨by omega, h2, ?_⟩
          intro m hm
          cases m with
          | zero => rw [historyAfter_zero]; exact hh
          | succ j => rw [historyAfter_cons]; exact h3 j (by omega)
        · rintro ⟨h1, h2, h3⟩
          refine ⟨by omega, h2, ?_⟩
          intro m hm
          have := h3 (m + 1) (by omega)
          rwa [historyAfter_cons] at this

theorem debounceUpdate_first_match (x : Nat) (b : Bool) (hx : x % 128 ≠ 127)
    (h : debounceUpdate x b % 128 = 127) : debounceUpdate x b = 0b01111111 := by
  rw [debounceUpdate_eq] at h ⊢
  cases b <;> simp at h ⊢ <;> omega

theorem sevenActive_iff (samples : List Bool) (n : Nat) :
    sevenActive samples n ↔ n ≤ samples.length ∧ historyAfter 0 samples n % 128 = 127 := by
  have := low_bits_iff_suffix 7 (le_refl 7) (samples.take n)
  simp only [sevenActive, historyAfter]
  constructor
  · rintro ⟨h1, h2⟩; exact ⟨h1, by simpa using this.2 h2⟩
  · rintro ⟨h1, h2⟩; exact ⟨h1, this.1 (by simpa using h2)⟩

theorem consentWait_first_sevenActive (samples : List Bool) (n : Nat) :
    consentWait 0 samples = some n ↔
      sevenActive samples n ∧ ∀ m, m < n → ¬ sevenActive samples m := by
  rw [consentWait_iff]
  simp only [sevenActive_iff]
  constructor
  · rintro ⟨h1, h2, h3⟩
    refine ⟨⟨h1, by rw [h2]⟩, ?_⟩
    have key : ∀ m, m < n → historyAfter 0 samples m % 128 ≠ 127 := by
      intro m
      induction m with
      | zero => intro _; rw [historyAfter_zero]; decide
      | succ k ihk =>
        intro hk hmod
        obtain ⟨b, hb⟩ := historyAfter_succ samples 0 k (by omega)
        rw [hb] at hmod
        have := debounceUpdate_first_match _ b (ihk (by omega)) hmod
        rw [← hb] at this
        exact h3 (k + 1) hk this
    intro m hm hcon
    exact key m hm hcon.2
  · rintro ⟨⟨h1, h2⟩, h3⟩
    have hne : ∀ m, m < n → historyAfter 0 samples m % 128 ≠ 127 := by
      intro m hm hmod
      exact h3 m hm ⟨by omega, hmod⟩
    refine ⟨h1, ?_, ?_⟩
    · cases n with
      | zero => rw [historyAfter_zero] at h2; simp at h2
      | succ k =>
        obtain ⟨b, hb⟩ := historyAfter_succ samples 0 k (by omega)
        rw [hb] at h2 ⊢
        exact debounceUpdate_first_match _ b (hne k (by omega)) h2
    · intro m hm heq
      exact hne m hm (by rw [heq])
set_option maxRecDepth 1000000 in
theorem lor_bit_of_even_byte : ∀ (x : Fin 256) (b : Bool), x.val % 2 = 0 →
    x.val ||| b.toNat = x.val + b.toNat := by
  decide

theorem fgStep_consentHistInv (s : State) (i : Pins) (h : ConsentHistInv s) :
    ConsentHistInv (fgStep s i) := by
  obtain ⟨hlt, hff, h300, h301⟩ := h
  have hshl : shl8 s.button_history_UserPowerOn_input = 2 * (s.button_history_UserPowerOn_input % 128) := by
    unfold shl8; rw [Nat.shiftLeft_eq]; omega
  have hor := lor_bit_of_even_byte ⟨s.button_history_UserPowerOn_input, hlt⟩ i.UserPowerOn_input
  have hb : i.UserPowerOn_input.toNat ≤ 1 := Bool.toNat_le _
  by_cases hp0 : s.pc = PC.L300
  · have := h300 hp0
    simp only [ConsentHistInv, fgStep, hp0, hshl]
    refine ⟨by omega, by omega, by simp, fun _ => ⟨by omega, by omega⟩⟩
  · by_cases hp1 : s.pc = PC.L301
    · obtain ⟨he, hfe⟩ := h301 hp1
      have hor2 := hor he
      simp only at hor2
      simp only [ConsentHistInv, fgStep, hp1, hor2]
      refine ⟨by omega, by omega, by simp, by simp⟩
    · unfold ConsentHistInv fgStep
      split <;> (try split) <;> simp_all

theorem step_consentHistInv (s : State) (e : Event) (h : ConsentHistInv s) :
    ConsentHistInv (step s e) := by
  cases e with
  | fg i => exact fgStep_consentHistInv s i h
  | isr => simpa [ConsentHistInv, step] using h
  | c1Edge => exact h
  | tmr1Overflow => exact h

theorem start_consentHistInv (por : State) : ConsentHistInv (start por) := by
  simp [ConsentHistInv, start, doSetup, entry, startPWM, setupactualSpeedPulses]

/-- The loop of the machine follows `consentWait`: from the loop test of line
298, the foreground statements for the first `n` samples and one more loop test
lead to line 314 with the history at the exit pattern. -/
theorem consentWait_exec (samples : List Bool) :
    ∀ (s : State) (n : Nat) (i : Pins), s.pc = PC.L298 →
      consentWait s.button_history_UserPowerOn_input samples = some n →
      (exec s (consentPolls (samples.take n) ++ [Event.fg i])).pc = PC.L314 ∧
      (exec s (consentPolls (samples.take n) ++ [Event.fg i])).button_history_UserPowerOn_input
        = 0b01111111 := by
  induction samples with
  | nil =>
    intro s n i hpc hw
    simp only [consentWait] at hw
    split_ifs at hw with hh
    simp only [List.take_nil, consentPolls, List.map_nil, List.flatten_nil, List.nil_append,
      exec, List.foldl_cons, List.foldl_nil, step, fgStep, hpc]
    simp only [ne_eq, Decidable.not_not] at hh
    simp [hh]
  | cons b rest ih =>
    intro s n i hpc hw
    simp only [consentWait] at hw
    split_ifs at hw with hh
    · cases hr : consentWait (debounceUpdate s.button_history_UserPowerOn_input b) rest with
      | none => simp [hr] at hw
      | some k =>
        simp only [hr, Option.map_some', Option.some.injEq] at hw
        subst hw
        have hpcs : (exec s (List.replicate 3 (fgWith b true true))).pc = PC.L298 := by
          simp [exec, List.replicate, step, fgStep, hpc, hh, fgWith]
        have hhist : (exec s (List.replicate 3 (fgWith b true true))).button_history_UserPowerOn_input
            = debounceUpdate s.button_history_UserPowerOn_input b := by
          simp [exec, List.replicate, step, fgStep, hpc, hh, fgWith, debounceUpdate]
        have hrec := ih (exec s (List.replicate 3 (fgWith b true true))) k i hpcs
          (by rw [hhist]; exact hr)
        have hsplit : consentPolls (List.take (k + 1) (b :: rest)) ++ [Event.fg i] =
            List.replicate 3 (fgWith b true true) ++
              (consentPolls (List.take k rest) ++ [Event.fg i]) := by
          simp [consentPolls]
        rw [hsplit, exec_append]
        exact hrec
    · simp only [Option.some.injEq] at hw
      subst hw
      simp only [ne_eq, Decidable.not_not] at hh
      simp [consentPolls, exec, step, fgStep, hpc, hh]

/-- C6: for every sequence of user-power samples and every `n`, the consent
wait loop, started with the history `0b00000000`, ends after poll `n` exactly
when `n` is the first poll at which the 7 most recent samples are all active.
Seven active polls from the start end it after 7 polls, it never ends before
the 7th poll, and in no state `main` reaches is the history `0b11111111`. -/
theorem consent_wait_ends_at_first_seven_active (samples : List Bool) (n : Nat) :
    (consentWait 0 samples = some n ↔
      sevenActive samples n ∧ ∀ m, m < n → ¬ sevenActive samples m) ∧
    consentWait 0 (List.replicate 7 true ++ samples) = some 7 ∧
    (consentWait 0 samples = some n → 7 ≤ n) ∧
    (∀ (por : State) (es : List Event),
      (exec (start por) es).button_history_UserPowerOn_input ≠ 0b11111111) := by
  refine ⟨consentWait_first_sevenActive samples n, ?_, ?_, ?_⟩
  · cases samples <;> rfl
  · intro h
    have hs := ((consentWait_first_sevenActive samples n).1 h).1.2
    have hl := hs.length_le
    simp only [List.length_replicate, List.length_take] at hl
    omega
  · intro por es
    exact (exec_invariant ConsentHistInv step_consentHistInv es _
      (start_consentHistInv por)).2.1
/-! ### The speed step at shutdown -/

theorem fgStep_desiredSpeedCtr_shutdown (s : State) (i : Pins) (h : toTerminal s.pc ≤ 5) :
    (fgStep s i).desiredSpeedCtr = s.desiredSpeedCtr := by
  rw [fgStep_desiredSpeedCtr]
  have h1 : s.pc ≠ PC.L392 := by
    intro hp; rw [hp] at h; revert h; decide
  have h2 : s.pc ≠ PC.L397 := by
    intro hp; rw [hp] at h; revert h; decide
  simp [h1, h2]

theorem exec_desiredSpeedCtr_shutdown (es : List Event) :
    ∀ s : State, toTerminal s.pc ≤ 5 → (exec s es).desiredSpeedCtr = s.desiredSpeedCtr := by
  induction es with
  | nil => intro s _; rfl
  | cons e es ih =>
    intro s h
    rw [exec_cons]
    cases e with
    | fg i =>
      have h1 := fgStep_toTerminal s i h
      rw [ih (step s (Event.fg i)) (by simp only [step]; omega)]
      exact fgStep_desiredSpeedCtr_shutdown s i h
    | isr =>
      rw [ih (step s Event.isr) (by simpa [step] using h)]
      simp [step]
    | c1Edge => exact ih _ h
    | tmr1Overflow => exact ih _ h

set_option maxRecDepth 1000000 in
/-- C11, counterexample: at the end of the scenario the Running loop ends with
`desiredSpeedCtr = 2`, a value in [0, 11]; after the five statements of the
shutdown pass the terminal loop is entered and `desiredSpeedCtr` is still 2,
not 0. -/
theorem shutdown_keeps_speed_step_counterexample :
    (exec (start por0) stopRequested).pc = PC.L430 ∧
    (exec (start por0) stopRequested).desiredSpeedCtr = 2 ∧
    (exec (start por0) (stopRequested ++ shutdownStatements)).pc = PC.L442 ∧
    (exec (start por0) (stopRequested ++ shutdownStatements)).desiredSpeedCtr = 2 ∧
    (exec (start por0) (stopRequested ++ shutdownStatements)).desiredSpeedCtr ≠ 0 := by
  refine ⟨by decide, by decide, by decide, by decide, by decide⟩

/-- C11, amended: once the Running loop has ended (line 430 is reached), no
later event, interrupts included, changes `desiredSpeedCtr`: in the shutdown
pass and in the terminal loop it keeps the value it had when the Running loop
ended (the pass zeroes the duty registers, not the step). -/
theorem shutdown_keeps_speed_step (por : State) (es es2 : List Event)
    (hend : (exec (start por) es).pc = PC.L430) :
    (exec (start por) (es ++ es2)).desiredSpeedCtr = (exec (start por) es).desiredSpeedCtr ∧
    (exec (start por) (es ++ es2)).desiredSpeedCtr ≤ 11 := by
  have h := exec_desiredSpeedCtr_shutdown es2 (exec (start por) es) (by rw [hend]; decide)
  rw [exec_append]
  exact ⟨h, by rw [h]; exact (exec_ctrInv por es).1⟩

set_option maxRecDepth 1000000 in
/-- Witness of C11 amended: the scenario, the stop request and the shutdown
pass. -/
theorem shutdown_keeps_speed_step_witness :
    (exec (start por0) stopRequested).pc = PC.L430 ∧
    (exec (start por0) (stopRequested ++ shutdownStatements)).desiredSpeedCtr =
      (exec (start por0) stopRequested).desiredSpeedCtr :=
  ⟨by decide, (shutdown_keeps_speed_step por0 stopRequested shutdownStatements (by decide)).1⟩
/-! ### The interrupt routine -/

theorem wrapInt16_of_range (z : Int) (h0 : -32768 ≤ z) (h1 : z ≤ 32767) : wrapInt16 z = z := by
  unfold wrapInt16 toInt16
  have hm : (0 : Int) ≤ z % 65536 := Int.emod_nonneg z (by norm_num)
  have hlt : z % 65536 < 65536 := Int.emod_lt_of_pos z (by norm_num)
  have hnat : (((z % 65536).toNat : Nat) : Int) = z % 65536 := Int.toNat_of_nonneg hm
  have hmod : (z % 65536).toNat % 65536 = (z % 65536).toNat := by
    apply Nat.mod_eq_of_lt
    omega
  rw [hmod]
  split_ifs with h <;> omega

/-- The whole effect of one invocation of `Isr`, register by register. -/
theorem Isr_eq (s : State) :
    Isr s =
      { s with
        GIE := HIGH,
        actualSpeedPulses :=
          if s.C1IE && s.C1IF then wrapInt16 (s.actualSpeedPulses + 1) else s.actualSpeedPulses,
        C1IF := if s.C1IE && s.C1IF then LOW else s.C1IF,
        C1ON := if s.TMR1IE && s.TMR1IF then LOW else s.C1ON,
        TMR1ON := if s.TMR1IE && s.TMR1IF then LOW else s.TMR1ON } := by
  unfold Isr returnFromInterrupt IsrBody
  cases h1 : s.C1IE <;> cases h2 : s.C1IF <;> cases h3 : s.TMR1IE <;> cases h4 : s.TMR1IF <;>
    simp [h1, h2, h3, h4]

/-- C12, counterexample: with the comparator source enabled and pending and
`actualSpeedPulses = 32767`, one invocation of `Isr` leaves
`actualSpeedPulses = -32768`: the counter has not increased by one. -/
theorem isr_increment_wraps_counterexample :
    counterAtMax.C1IE = HIGH ∧ counterAtMax.C1IF = HIGH ∧
    counterAtMax.actualSpeedPulses = 32767 ∧
    (Isr counterAtMax).actualSpeedPulses = -32768 ∧
    (Isr counterAtMax).actualSpeedPulses ≠ counterAtMax.actualSpeedPulses + 1 := by
  refine ⟨by decide, by decide, by decide, by decide, by decide⟩

/-- C12, amended: for every register state one invocation of `Isr` does
exactly this. If the comparator source is enabled and pending,
`actualSpeedPulses` becomes `actualSpeedPulses + 1` wrapped to 16 bits (which is
`actualSpeedPulses + 1` for every value from -32768 to 32766) and C1IF is
cleared. If the Timer 1 source is enabled and pending, C1ON and TMR1ON are
cleared, TMR1IF stays set and `actualSpeedPulses` is as the comparator branch
left it. Both branches run when both sources are pending; when neither is
pending nothing but GIE changes, and in every case no register other than
these and GIE changes. -/
theorem isr_effect (s : State) :
    ((s.C1IE = HIGH ∧ s.C1IF = HIGH) →
      (Isr s).actualSpeedPulses = wrapInt16 (s.actualSpeedPulses + 1) ∧
      (-32768 ≤ s.actualSpeedPulses → s.actualSpeedPulses < 32767 →
        (Isr s).actualSpeedPulses = s.actualSpeedPulses + 1) ∧
      (Isr s).C1IF = LOW) ∧
    ((s.TMR1IE = HIGH ∧ s.TMR1IF = HIGH) →
      (Isr s).C1ON = LOW ∧ (Isr s).TMR1ON = LOW ∧ (Isr s).TMR1IF = HIGH) ∧
    (¬ (s.C1IE = HIGH ∧ s.C1IF = HIGH) →
      (Isr s).actualSpeedPulses = s.actualSpeedPulses ∧ (Isr s).C1IF = s.C1IF) ∧
    (¬ (s.TMR1IE = HIGH ∧ s.TMR1IF = HIGH) →
      (Isr s).C1ON = s.C1ON ∧ (Isr s).TMR1ON = s.TMR1ON) ∧
    (¬ (s.C1IE = HIGH ∧ s.C1IF = HIGH) → ¬ (s.TMR1IE = HIGH ∧ s.TMR1IF = HIGH) →
      { Isr s with GIE := s.GIE } = s) ∧
    { Isr s with GIE := s.GIE } =
      { s with
        actualSpeedPulses :=
          if s.C1IE && s.C1IF then wrapInt16 (s.actualSpeedPulses + 1) else s.actualSpeedPulses,
        C1IF := if s.C1IE && s.C1IF then LOW else s.C1IF,
        C1ON := if s.TMR1IE && s.TMR1IF then LOW else s.C1ON,
        TMR1ON := if s.TMR1IE && s.TMR1IF then LOW else s.TMR1ON } := by
  have he := Isr_eq s
  refine ⟨?_, ?_, ?_, ?_, ?_, by rw [he]⟩
  · rintro ⟨h1, h2⟩
    have hv : (Isr s).actualSpeedPulses = wrapInt16 (s.actualSpeedPulses + 1) := by
      rw [he]; simp [h1, h2]
    refine ⟨hv, ?_, by rw [he]; simp [h1, h2]⟩
    intro hlo hhi
    rw [hv, wrapInt16_of_range _ (by omega) (by omega)]
  · rintro ⟨h1, h2⟩
    rw [he]; simp [h1, h2]
  · intro hn
    rw [he]
    cases h1 : s.C1IE <;> cases h2 : s.C1IF <;> simp_all
  · intro hn
    rw [he]
    cases h1 : s.TMR1IE <;> cases h2 : s.TMR1IF <;> simp_all
  · intro hn1 hn2
    have c : (s.C1IE && s.C1IF) = false := by
      cases h1 : s.C1IE <;> cases h2 : s.C1IF <;> simp_all
    have t : (s.TMR1IE && s.TMR1IF) = false := by
      cases h3 : s.TMR1IE <;> cases h4 : s.TMR1IF <;> simp_all
    rw [he]
    simp only [c, t, Bool.false_eq_true, if_false]

/-- Witness of C12 amended: a state with both sources pending and the counter
at 5. -/
theorem isr_effect_witness :
    (por0.C1IF = HIGH ∧ por0.TMR1IF = HIGH) ∧
    (Isr { por0 with C1IE := HIGH, TMR1IE := HIGH }).actualSpeedPulses = 5 + 1 ∧
    (Isr { por0 with C1IE := HIGH, TMR1IE := HIGH }).C1ON = LOW :=
  ⟨by decide,
    ((isr_effect { por0 with C1IE := HIGH, TMR1IE := HIGH }).1 (by decide)).2.1
      (by decide) (by decide),
    ((isr_effect { por0 with C1IE := HIGH, TMR1IE := HIGH }).2.1 (by decide)).1⟩
/-! ### The pulse counter -/

theorem fgStep_counter_frame (s : State) (i : Pins) :
    (fgStep s i).actualSpeedPulses = s.actualSpeedPulses ∧ (fgStep s i).C1IE = s.C1IE ∧
    (fgStep s i).C1IF = s.C1IF ∧ (fgStep s i).TMR1IE = s.TMR1IE ∧
    (fgStep s i).TMR1IF = s.TMR1IF ∧ (fgStep s i).C1ON = s.C1ON ∧
    (fgStep s i).TMR1ON = s.TMR1ON := by
  unfold fgStep
  split <;> (try split) <;> simp

theorem exec_edgeHandled (s : State) :
    exec s edgeHandled = Isr { s with C1IF := HIGH } := rfl

theorem exec_elapsedHandled (s : State) :
    exec s elapsedHandled = Isr { s with TMR1IF := HIGH } := rfl

theorem edges_succ (n : Nat) : edges (n + 1) = edges n ++ edgeHandled := by
  simp [edges, List.replicate_succ']

/-- After `n` handled edge events the counter has gone up by `n`, as long as it
stays within 16 bits. -/
theorem exec_edges (n : Nat) :
    ∀ s : State, s.C1IE = HIGH → s.C1IF = LOW → -32768 ≤ s.actualSpeedPulses →
      s.actualSpeedPulses + n ≤ 32767 →
      (exec s (edges n)).actualSpeedPulses = s.actualSpeedPulses + n ∧
      (exec s (edges n)).C1IE = HIGH ∧ (exec s (edges n)).C1IF = LOW ∧
      (exec s (edges n)).TMR1IE = s.TMR1IE ∧ (exec s (edges n)).TMR1IF = s.TMR1IF := by
  induction n with
  | zero => intro s h1 h2 _ _; simp [edges, exec_nil, h1, h2]
  | succ n ih =>
    intro s h1 h2 hlo hhi
    obtain ⟨ha, hb, hc, hd, he⟩ := ih s h1 h2 hlo (by push_cast at hhi; omega)
    rw [edges_succ, exec_append, exec_edgeHandled, Isr_eq]
    simp only [hb, Bool.and_self, if_true, ha, hd, he]
    refine ⟨?_, trivial, trivial, trivial, trivial⟩
    rw [wrapInt16_of_range _ (by omega) (by push_cast at hhi; omega)]
    push_cast
    omega

/-- Invocations of `Isr` that find no comparator event pending leave the
counter alone. -/
theorem exec_isr_idle (m : Nat) :
    ∀ s : State, s.C1IF = LOW →
      (exec s (List.replicate m Event.isr)).actualSpeedPulses = s.actualSpeedPulses ∧
      (exec s (List.replicate m Event.isr)).C1IF = LOW := by
  induction m with
  | zero => intro s h; exact ⟨rfl, h⟩
  | succ m ih =>
    intro s h
    rw [List.replicate_succ, exec_cons]
    have hs : (step s Event.isr).C1IF = LOW ∧
        (step s Event.isr).actualSpeedPulses = s.actualSpeedPulses := by
      simp only [step, Isr_eq, h]
      simp
    obtain ⟨h1, h2⟩ := ih (step s Event.isr) hs.1
    exact ⟨by rw [h1, hs.2], h2⟩

/-- The counter around the close of a window, for every window start and all
counts within the 16 bit range: `n` edge events handled by `Isr` and then the
Timer 1 elapsed event handled leave `actualSpeedPulses = n` with C1ON and
TMR1ON switched off, and invocations of `Isr` that find no comparator event
pending keep it at `n`; `m` edge events handled after the elapsed event take it
to `n + m`, against the comment of line 862. -/
theorem pulse_count_around_window_close (s : State) (n m : Nat) (hs : windowOpen s)
    (hn : n + m ≤ 32767) :
    (exec s (edges n ++ elapsedHandled)).actualSpeedPulses = n ∧
    (exec s (edges n ++ elapsedHandled)).C1ON = LOW ∧
    (exec s (edges n ++ elapsedHandled)).TMR1ON = LOW ∧
    (exec s (edges n ++ elapsedHandled ++ List.replicate m Event.isr)).actualSpeedPulses = n ∧
    (exec s (edges n ++ elapsedHandled ++ edges m)).actualSpeedPulses = n + m := by
  obtain ⟨h0, h1, h2, h3, h4⟩ := hs
  obtain ⟨ha, hb, hc, hd, he⟩ := exec_edges n s h1 h3 (by rw [h0]; norm_num)
    (by rw [h0]; omega)
  have hclose : (exec s (edges n ++ elapsedHandled)).actualSpeedPulses = n ∧
      (exec s (edges n ++ elapsedHandled)).C1ON = LOW ∧
      (exec s (edges n ++ elapsedHandled)).TMR1ON = LOW ∧
      (exec s (edges n ++ elapsedHandled)).C1IE = HIGH ∧
      (exec s (edges n ++ elapsedHandled)).C1IF = LOW := by
    rw [exec_append, exec_elapsedHandled, Isr_eq]
    simp [hb, hc, hd, h2, ha, h0]
  obtain ⟨k1, k2, k3, k4, k5⟩ := hclose
  refine ⟨k1, k2, k3, ?_, ?_⟩
  · rw [exec_append, (exec_isr_idle m _ k5).1, k1]
  · rw [exec_append, (exec_edges m _ k4 k5 (by rw [k1]; omega)
      (by rw [k1]; omega)).1, k1]

set_option maxRecDepth 1000000 in
/-- An instance of `pulse_count_around_window_close`: 2 edge events, the
elapsed event, 1 late edge event, from the start of `main`. -/
theorem pulse_count_around_window_close_witness :
    windowOpen (start por0) ∧
    (exec (start por0) (edges 2 ++ elapsedHandled ++ edges 1)).actualSpeedPulses
      = ((2 : Nat) : Int) + ((1 : Nat) : Int) :=
  ⟨by decide, (pulse_count_around_window_close (start por0) 2 1 (by decide) (by decide)).2.2.2.2⟩
theorem step_counter_frame (s : State) (e : Event) :
    (step s e).C1IE = s.C1IE ∧
    (step s e).actualSpeedPulses =
      if countsEdge s e then wrapInt16 (s.actualSpeedPulses + 1) else s.actualSpeedPulses := by
  cases e with
  | fg i =>
    have h := fgStep_counter_frame s i
    exact ⟨h.2.1, by simpa [step, countsEdge] using h.1⟩
  | isr =>
    simp only [step, countsEdge, Isr_eq]
    exact ⟨trivial, trivial⟩
  | c1Edge => exact ⟨rfl, rfl⟩
  | tmr1Overflow => exact ⟨rfl, rfl⟩

/-- The counter after a run is its value before plus the number of counting
invocations of `Isr`, as long as that stays within 16 bits. -/
theorem exec_counter (es : List Event) :
    ∀ (s : State) (k : Nat), s.actualSpeedPulses = k → k + edgeCount s es ≤ 32767 →
      (exec s es).actualSpeedPulses = ((k + edgeCount s es : Nat) : Int) := by
  induction es with
  | nil => intro s k hk _; simpa [edgeCount, exec_nil] using hk
  | cons e es ih =>
    intro s k hk hle
    simp only [edgeCount] at hle ⊢
    rw [exec_cons]
    have hf := (step_counter_frame s e).2
    by_cases hc : countsEdge s e = true
    · simp only [hc, if_true] at hf hle ⊢
      have hw : (step s e).actualSpeedPulses = ((k + 1 : Nat) : Int) := by
        rw [hf, hk, wrapInt16_of_range _ (by omega) (by omega)]
        push_cast; rfl
      rw [ih (step s e) (k + 1) hw (by omega)]
      congr 1
      omega
    · simp only [hc, Bool.false_eq_true, if_false] at hf hle ⊢
      rw [ih (step s e) k (by rw [hf, hk]) (by omega)]
      congr 1
      omega

theorem start_counter (por : State) :
    (start por).actualSpeedPulses = 0 ∧ (start por).C1IE = HIGH ∧ (start por).C1IF = LOW := by
  simp [start, doSetup, entry, startPWM, setupactualSpeedPulses]

/-- One more handled edge event with the counter at 32767 gives -32768. -/
theorem exec_edgeHandled_at_max (t : State) (hb : t.C1IE = HIGH)
    (ha : t.actualSpeedPulses = 32767) :
    (exec t edgeHandled).actualSpeedPulses = -32768 := by
  rw [exec_edgeHandled, Isr_eq]
  show (if (t.C1IE && HIGH) = true then wrapInt16 (t.actualSpeedPulses + 1)
      else t.actualSpeedPulses) = -32768
  rw [hb, ha]
  decide

/-- C14, counterexample: from the start of `main`, where `actualSpeedPulses` is
0, after 32767 edge events handled by `Isr` the counter is 32767, and after one
more (the 32768th) it is -32768, a negative value. -/
theorem pulse_counter_negative_counterexample :
    (exec (start por0) (edges 32767)).actualSpeedPulses = 32767 ∧
    (exec (start por0) (edges 32767 ++ edgeHandled)).actualSpeedPulses = -32768 ∧
    (exec (start por0) (edges 32767 ++ edgeHandled)).actualSpeedPulses < 0 := by
  have hs := start_counter por0
  obtain ⟨ha, hb, _, _, _⟩ := exec_edges 32767 (start por0) hs.2.1 hs.2.2
    (by rw [hs.1]; norm_num) (by rw [hs.1]; norm_num)
  rw [hs.1] at ha
  have h1 : (exec (start por0) (edges 32767)).actualSpeedPulses = 32767 := by
    rw [ha]; norm_num
  have hv : (exec (start por0) (edges 32767 ++ edgeHandled)).actualSpeedPulses = -32768 := by
    rw [exec_append]
    exact exec_edgeHandled_at_max _ hb h1
  exact ⟨h1, hv, by rw [hv]; decide⟩

/-- C14, amended: in every state `main` reaches, under every sequence of pin
samples and interrupts, in which `Isr` has handled at most 32767 edge events
(invocations that execute `++actualSpeedPulses`), `actualSpeedPulses` equals
the number of edge events handled and is non-negative. -/
theorem pulse_counter_nonnegative_below_wrap (por : State) (es : List Event)
    (h : edgeCount (start por) es ≤ 32767) :
    (exec (start por) es).actualSpeedPulses = ((edgeCount (start por) es : Nat) : Int) ∧
    0 ≤ (exec (start por) es).actualSpeedPulses := by
  have hc := exec_counter es (start por) 0 (by simpa using (start_counter por).1) (by omega)
  simp only [Nat.zero_add] at hc
  exact ⟨hc, by rw [hc]; exact Int.natCast_nonneg _⟩

set_option maxRecDepth 1000000 in
/-- Witness of C14 amended: the scenario followed by 3 handled edge events. -/
theorem pulse_counter_nonnegative_below_wrap_witness :
    edgeCount (start por0) (scenario ++ edges 3) ≤ 32767 ∧
    (exec (start por0) (scenario ++ edges 3)).actualSpeedPulses = 3 :=
  ⟨by decide,
    (pulse_counter_nonnegative_below_wrap por0 (scenario ++ edges 3) (by decide)).1.trans
      (by decide)⟩
/-! ### The foreground and the counter -/

/-- C16: with 36 openings and a window of 0.1 s the idealized pulse count
`RPM * F * W / 60` is 60 at 1000 RPM and 270 at 4500 RPM; for every step `i`
in 1..11 the design pulse count of the header table is `60 + 21 * (i - 1)`, the
design speed of the table is `1000 + 350 * (i - 1)`, and the count equals the
formula at that speed, so the count is linear in the step. -/
theorem design_pulse_count_linear :
    idealPulseCount 1000 = 60 ∧ idealPulseCount 4500 = 270 ∧
    ∀ i : Nat, 1 ≤ i → i ≤ 11 →
      designPulseCount[i]? = some (60 + 21 * (i - 1)) ∧
      designRPM[i]? = some (1000 + 350 * (i - 1)) ∧
      ((designRPM.getD i 0 : Nat) : ℚ) = stepRPM i ∧
      idealPulseCount (stepRPM i) = ((designPulseCount.getD i 0 : Nat) : ℚ) ∧
      idealPulseCount (stepRPM i) = 60 + 21 * ((i : ℚ) - 1) := by
  refine ⟨by norm_num [idealPulseCount, diskOpenings, windowSeconds],
    by norm_num [idealPulseCount, diskOpenings, windowSeconds], ?_⟩
  intro i h1 h2
  interval_cases i <;>
    norm_num [idealPulseCount, diskOpenings, windowSeconds, designPulseCount, designRPM,
      stepRPM]

/-- C17: `startPWM` sets PR2 to 0x65, so `4 * (PR2 + 1) = 408`; for every step
`i` in 1..11 the entry `desiredSpeed[i]` is `DCR_i * 408` rounded to the nearest
integer, with `DCR_i = (180/320) * (RPM_i/4700)` and
`RPM_i = 1000 + 350 * (i - 1)`; the table is 0, 49, 66, 83, 100, 117, 134, 151,
168, 186, 203, 220. -/
theorem desiredSpeed_from_design_formula :
    (∀ s : State, (startPWM s).PR2 = 0x65) ∧
    pwmResolution 0x65 = 408 ∧
    (∀ i : Nat, 1 ≤ i → i ≤ 11 →
      ((desiredSpeed.getD i 0 : Nat) : Int) =
        roundNearest (dutyCycleRatio (stepRPM i) * pwmResolution 0x65)) ∧
    desiredSpeed = [0, 49, 66, 83, 100, 117, 134, 151, 168, 186, 203, 220] := by
  refine ⟨fun s => rfl, by norm_num [pwmResolution], ?_, by decide⟩
  intro i h1 h2
  interval_cases i <;>
    norm_num [desiredSpeed, roundNearest, dutyCycleRatio, stepRPM, pwmResolution,
      Int.floor_eq_iff, eq_comm]

/-- C18: with PR2 = 0x65, for every step in 1..11 the commanded duty ratio
`desiredSpeed[step] / (4 * (PR2 + 1))` lies between 12% and 54% inclusive, and
for every step in 0..11 it is at most 180/320 and at most 56%. -/
theorem commanded_duty_within_limits :
    (∀ i : Nat, 1 ≤ i → i ≤ 11 →
      12 / 100 ≤ commandedRatio 0x65 (desiredSpeed.getD i 0) ∧
      commandedRatio 0x65 (desiredSpeed.getD i 0) ≤ 54 / 100) ∧
    (∀ i : Nat, i ≤ 11 →
      commandedRatio 0x65 (desiredSpeed.getD i 0) ≤ 180 / 320 ∧
      commandedRatio 0x65 (desiredSpeed.getD i 0) ≤ 56 / 100) := by
  constructor
  · intro i h1 h2
    interval_cases i <;> norm_num [commandedRatio, pwmResolution, desiredSpeed]
  · intro i h2
    interval_cases i <;> norm_num [commandedRatio, pwmResolution, desiredSpeed]
/-! ### The history holds the 8 most recent samples -/

theorem bitsOf_concat (ws : List Bool) (b : Bool) :
    bitsOf (ws ++ [b]) = 2 * bitsOf ws + b.toNat := by
  simp [bitsOf, List.foldl_append]

theorem foldl_debounce_concat (h : Nat) (ws : List Bool) (b : Bool) :
    (ws ++ [b]).foldl debounceUpdate h = 2 * (ws.foldl debounceUpdate h % 128) + b.toNat := by
  rw [List.foldl_append, List.foldl_cons, List.foldl_nil, debounceUpdate_eq]

/-- After the polls `zs` the history is, modulo 256, the old history shifted
by the number of polls plus the samples. -/
theorem foldl_debounce_mod (h : Nat) (zs : List Bool) :
    zs.foldl debounceUpdate h % 256 = (h * 2 ^ zs.length + bitsOf zs) % 256 := by
  induction zs using List.reverseRecOn with
  | nil => simp [bitsOf]
  | append_singleton ws b ih =>
    rw [foldl_debounce_concat, bitsOf_concat, List.length_append, List.length_singleton,
      pow_succ]
    have hb : b.toNat ≤ 1 := Bool.toNat_le b
    have hp : h * (2 ^ ws.length * 2) = 2 * (h * 2 ^ ws.length) := by ring
    rw [hp]
    generalize ws.foldl debounceUpdate h = y at ih ⊢
    generalize h * 2 ^ ws.length = p at ih ⊢
    omega

theorem foldl_debounce_lt (h : Nat) (zs : List Bool) (hz : zs ≠ []) :
    zs.foldl debounceUpdate h < 256 := by
  rcases List.eq_nil_or_concat zs with hnil | ⟨ws, b, hzs⟩
  · exact absurd hnil hz
  · subst hzs
    rw [List.concat_eq_append, foldl_debounce_concat]
    have hb : b.toNat ≤ 1 := Bool.toNat_le b
    omega

theorem foldl_debounce_last8 (h0 : Nat) (ys : List Bool) (a7 a6 a5 a4 a3 a2 a1 a0 : Bool) :
    (ys ++ [a7, a6, a5, a4, a3, a2, a1, a0]).foldl debounceUpdate h0 =
      128 * a7.toNat + 64 * a6.toNat + 32 * a5.toNat + 16 * a4.toNat + 8 * a3.toNat +
        4 * a2.toNat + 2 * a1.toNat + a0.toNat := by
  rw [List.foldl_append]
  have hm := foldl_debounce_mod (ys.foldl debounceUpdate h0) [a7, a6, a5, a4, a3, a2, a1, a0]
  have hl := foldl_debounce_lt (ys.foldl debounceUpdate h0) [a7, a6, a5, a4, a3, a2, a1, a0]
    (by simp)
  generalize [a7, a6, a5, a4, a3, a2, a1, a0].foldl debounceUpdate
    (ys.foldl debounceUpdate h0) = x at hm hl ⊢
  generalize ys.foldl debounceUpdate h0 = y at hm
  simp only [bitsOf, List.foldl_cons, List.foldl_nil, List.length_cons, List.length_nil] at hm
  have h7 := Bool.toNat_le a7
  have h6 := Bool.toNat_le a6
  have h5 := Bool.toNat_le a5
  have h4 := Bool.toNat_le a4
  have h3 := Bool.toNat_le a3
  have h2 := Bool.toNat_le a2
  have h1 := Bool.toNat_le a1
  have h0' := Bool.toNat_le a0
  norm_num at hm
  omega
theorem pressOf_up_iff (s : State) (i : Pins) :
    pressOf s (Event.fg i) = [Press.up] ↔
      s.pc = PC.L392 ∧ s.button_history_speedUP = 0b10000000 := by
  unfold pressOf
  split <;> (try split) <;> simp_all

theorem pressOf_down_iff (s : State) (i : Pins) :
    pressOf s (Event.fg i) = [Press.down] ↔
      s.pc = PC.L397 ∧ s.button_history_speedDN = 0b10000000 := by
  unfold pressOf
  split <;> (try split) <;> simp_all

theorem bits_testBit (a7 a6 a5 a4 a3 a2 a1 a0 : Bool) :
    ∀ x, x = 128 * a7.toNat + 64 * a6.toNat + 32 * a5.toNat + 16 * a4.toNat + 8 * a3.toNat +
        4 * a2.toNat + 2 * a1.toNat + a0.toNat →
      x.testBit 7 = a7 ∧ x.testBit 6 = a6 ∧ x.testBit 5 = a5 ∧ x.testBit 4 = a4 ∧
      x.testBit 3 = a3 ∧ x.testBit 2 = a2 ∧ x.testBit 1 = a1 ∧ x.testBit 0 = a0 := by
  intro x hx
  subst hx
  cases a7 <;> cases a6 <;> cases a5 <;> cases a4 <;> cases a3 <;> cases a2 <;> cases a1 <;>
    cases a0 <;> decide

/-- C19: after at least 8 polls of a line, whatever the initial history `h0`
and the earlier samples `ys`, the history is made of the 8 most recent raw
samples `a7` (oldest) to `a0` (newest): bit `k` is the sample taken `k` polls
ago. So the history equals the press pattern `0b10000000` exactly when the
oldest of the 8 is high (not active) and the 7 after it are low (active). The
press event of a Running loop pass is the test of the history against that
pattern at line 392 (up) and line 397 (down). -/
theorem history_is_last_eight_samples (h0 : Nat) (ys : List Bool)
    (a7 a6 a5 a4 a3 a2 a1 a0 : Bool) (s : State) (i : Pins) :
    (ys ++ [a7, a6, a5, a4, a3, a2, a1, a0]).foldl debounceUpdate h0 =
      128 * a7.toNat + 64 * a6.toNat + 32 * a5.toNat + 16 * a4.toNat + 8 * a3.toNat +
        4 * a2.toNat + 2 * a1.toNat + a0.toNat ∧
    (((ys ++ [a7, a6, a5, a4, a3, a2, a1, a0]).foldl debounceUpdate h0).testBit 7 = a7 ∧
     ((ys ++ [a7, a6, a5, a4, a3, a2, a1, a0]).foldl debounceUpdate h0).testBit 6 = a6 ∧
     ((ys ++ [a7, a6, a5, a4, a3, a2, a1, a0]).foldl debounceUpdate h0).testBit 5 = a5 ∧
     ((ys ++ [a7, a6, a5, a4, a3, a2, a1, a0]).foldl debounceUpdate h0).testBit 4 = a4 ∧
     ((ys ++ [a7, a6, a5, a4, a3, a2, a1, a0]).foldl debounceUpdate h0).testBit 3 = a3 ∧
     ((ys ++ [a7, a6, a5, a4, a3, a2, a1, a0]).foldl debounceUpdate h0).testBit 2 = a2 ∧
     ((ys ++ [a7, a6, a5, a4, a3, a2, a1, a0]).foldl debounceUpdate h0).testBit 1 = a1 ∧
     ((ys ++ [a7, a6, a5, a4, a3, a2, a1, a0]).foldl debounceUpdate h0).testBit 0 = a0) ∧
    ((ys ++ [a7, a6, a5, a4, a3, a2, a1, a0]).foldl debounceUpdate h0 = 0b10000000 ↔
      a7 = true ∧ a6 = false ∧ a5 = false ∧ a4 = false ∧ a3 = false ∧ a2 = false ∧
        a1 = false ∧ a0 = false) ∧
    (pressOf s (Event.fg i) = [Press.up] ↔
      s.pc = PC.L392 ∧ s.button_history_speedUP = 0b10000000) ∧
    (pressOf s (Event.fg i) = [Press.down] ↔
      s.pc = PC.L397 ∧ s.button_history_speedDN = 0b10000000) := by
  have hsum := foldl_debounce_last8 h0 ys a7 a6 a5 a4 a3 a2 a1 a0
  refine ⟨hsum, bits_testBit a7 a6 a5 a4 a3 a2 a1 a0 _ hsum, ?_, pressOf_up_iff s i,
    pressOf_down_iff s i⟩
  rw [hsum]
  cases a7 <;> cases a6 <;> cases a5 <;> cases a4 <;> cases a3 <;> cases a2 <;> cases a1 <;>
    cases a0 <;> decide
/-! ### One press event per press -/

theorem bitsOf_lt (zs : List Bool) : bitsOf zs < 2 ^ zs.length := by
  induction zs using List.reverseRecOn with
  | nil => simp [bitsOf]
  | append_singleton ws b ih =>
    rw [bitsOf_concat, List.length_append, List.length_singleton, pow_succ]
    have hb : b.toNat ≤ 1 := Bool.toNat_le b
    omega

theorem bitsOf_all_low (zs : List Bool) (h : ∀ b ∈ zs, b = false) : bitsOf zs = 0 := by
  induction zs using List.reverseRecOn with
  | nil => simp [bitsOf]
  | append_singleton ws b ih =>
    rw [bitsOf_concat, ih (fun x hx => h x (List.mem_append_left _ hx)),
      h b (List.mem_append_right _ (List.mem_singleton_self b))]
    rfl

theorem historyAfter_split (h0 : Nat) (samples : List Bool) (m n : Nat) (hmn : m ≤ n) :
    historyAfter h0 samples n =
      ((samples.take n).drop m).foldl debounceUpdate (historyAfter h0 samples m) := by
  unfold historyAfter
  rw [← List.foldl_append]
  have ht : samples.take m = (samples.take n).take m := by
    rw [List.take_take, Nat.min_eq_left hmn]
  rw [ht, List.take_append_drop]

/-- Two polls at which the history is at the press pattern are at least 8
polls apart and have a high sample between them. -/
theorem matches_apart (h0 : Nat) (samples : List Bool) (m n : Nat) (hmn : m < n)
    (hn : n ≤ samples.length) (hm : historyAfter h0 samples m = 0b10000000)
    (hk : historyAfter h0 samples n = 0b10000000) :
    m + 8 ≤ n ∧ ∃ k, m ≤ k ∧ k < n ∧ samples[k]? = some true := by
  have hsplit := historyAfter_split h0 samples m n (le_of_lt hmn)
  rw [hm] at hsplit
  have hlen : ((samples.take n).drop m).length = n - m := by
    simp [List.length_drop, List.length_take, Nat.min_eq_left hn]
  have hne : (samples.take n).drop m ≠ [] := by
    intro h0'
    rw [h0'] at hlen
    simp at hlen
    omega
  have hlt := foldl_debounce_lt 0b10000000 _ hne
  have hmod := foldl_debounce_mod 0b10000000 ((samples.take n).drop m)
  have hb := bitsOf_lt ((samples.take n).drop m)
  rw [← hsplit, hk, hlen] at hmod
  rw [hlen] at hb
  obtain ⟨d, hd⟩ : ∃ d, n - m = d + 1 := ⟨n - m - 1, by omega⟩
  rw [hd, pow_succ] at hmod hb
  constructor
  · by_contra hcon
    have hd7 : d ≤ 6 := by omega
    have hpow : 2 ^ d ≤ 2 ^ 6 := Nat.pow_le_pow_right (by norm_num) hd7
    generalize 2 ^ d = q at hmod hb hpow
    omega
  · by_contra hcon
    have hall : ∀ b ∈ (samples.take n).drop m, b = false := by
      intro b hbm
      cases b with
      | false => rfl
      | true =>
        exfalso
        apply hcon
        obtain ⟨j, hj⟩ := List.getElem?_of_mem hbm
        have hjlt : j < n - m := by
          have := (List.getElem?_eq_some.1 hj).1
          rw [hlen] at this
          exact this
        refine ⟨m + j, by omega, by omega, ?_⟩
        rw [List.getElem?_drop, List.getElem?_take] at hj
        simpa [show m + j < n by omega] using hj
    rw [bitsOf_all_low _ hall] at hmod
    generalize 2 ^ d = q at hmod
    omega
/-- One pass through the Running loop: the loop test finds the user power line
and `PowerPermissive_output` high, both histories take in their sample, the
speed step follows the two press tests, and the pass ends at the loop test. -/
theorem running_pass (s : State) (i : Pins) (hpc : s.pc = PC.L325)
    (hu : i.UserPowerOn_input = true) (hp : s.PowerPermissive_output = HIGH)
    (hc : s.desiredSpeedCtr ≤ 11) :
    (exec s (List.replicate 10 (Event.fg i))).pc = PC.L325 ∧
    (exec s (List.replicate 10 (Event.fg i))).PowerPermissive_output = HIGH ∧
    (exec s (List.replicate 10 (Event.fg i))).button_history_speedUP =
      debounceUpdate s.button_history_speedUP i.SpeedUp_input ∧
    (exec s (List.replicate 10 (Event.fg i))).button_history_speedDN =
      debounceUpdate s.button_history_speedDN i.SpeedDown_input ∧
    (exec s (List.replicate 10 (Event.fg i))).desiredSpeedCtr =
      onSpeedDown (debounceUpdate s.button_history_speedDN i.SpeedDown_input)
        (onSpeedUp (debounceUpdate s.button_history_speedUP i.SpeedUp_input)
          s.desiredSpeedCtr) := by
  have hle := onSpeedDown_le (debounceUpdate s.button_history_speedDN i.SpeedDown_input) _
    (onSpeedUp_le (debounceUpdate s.button_history_speedUP i.SpeedUp_input) _ hc)
  obtain ⟨v, hv⟩ := desiredSpeed_lookup _ hle
  have h10 : List.replicate 10 (Event.fg i) =
      List.replicate 8 (Event.fg i) ++ [Event.fg i, Event.fg i] := rfl
  have h8 : exec s (List.replicate 8 (Event.fg i)) =
      { s with
        FR6out := HIGH,
        button_history_speedUP := debounceUpdate s.button_history_speedUP i.SpeedUp_input,
        button_history_speedDN := debounceUpdate s.button_history_speedDN i.SpeedDown_input,
        desiredSpeedCtr :=
          onSpeedDown (debounceUpdate s.button_history_speedDN i.SpeedDown_input)
            (onSpeedUp (debounceUpdate s.button_history_speedUP i.SpeedUp_input)
              s.desiredSpeedCtr),
        pc := PC.L408 } := by
    simp [exec, List.replicate, step, fgStep, hpc, hu, hp, debounceUpdate]
  rw [h10, exec_append, h8]
  simp [exec, step, fgStep, hv, hp]

theorem debounceUpdate_high_ne (h : Nat) : debounceUpdate h true ≠ 0b10000000 := by
  rw [debounceUpdate_eq]
  simp
  omega

/-- While the speed-up button is held and the speed-down button is released,
the speed step changes at most once over any number of passes. -/
theorem held_passes_step_once (d : Nat) :
    ∀ s : State, s.pc = PC.L325 → s.PowerPermissive_output = HIGH → s.desiredSpeedCtr ≤ 11 →
      (exec s (heldPasses d)).desiredSpeedCtr = s.desiredSpeedCtr ∨
      ((exec s (heldPasses d)).desiredSpeedCtr = onSpeedUp 0b10000000 s.desiredSpeedCtr ∧
        (exec s (heldPasses d)).button_history_speedUP % 128 = 0) := by
  have key : ∀ (d : Nat) (s : State), s.pc = PC.L325 → s.PowerPermissive_output = HIGH →
      s.desiredSpeedCtr ≤ 11 →
      (exec s (heldPasses d)).pc = PC.L325 ∧
      (exec s (heldPasses d)).PowerPermissive_output = HIGH ∧
      (exec s (heldPasses d)).desiredSpeedCtr ≤ 11 ∧
      ((exec s (heldPasses d)).desiredSpeedCtr = s.desiredSpeedCtr ∨
        ((exec s (heldPasses d)).desiredSpeedCtr = onSpeedUp 0b10000000 s.desiredSpeedCtr ∧
          (exec s (heldPasses d)).button_history_speedUP % 128 = 0)) := by
    intro d
    induction d with
    | zero => intro s h1 h2 h3; exact ⟨h1, h2, h3, Or.inl rfl⟩
    | succ d ih =>
      intro s h1 h2 h3
      obtain ⟨k1, k2, k3, k4⟩ := ih s h1 h2 h3
      have hsplit : heldPasses (d + 1) = heldPasses d ++ runPass false true := by
        simp [heldPasses, List.replicate_succ']
      rw [hsplit, exec_append]
      obtain ⟨p1, p2, p3, _, p5⟩ := running_pass (exec s (heldPasses d))
        { ADRESL := 0x00, ADRESH := 0x03, UserPowerOn_input := true,
          SpeedUp_input := false, SpeedDown_input := true } k1 rfl k2 k3
      have hrun : runPass false true = List.replicate 10 (Event.fg
        { ADRESL := 0x00, ADRESH := 0x03, UserPowerOn_input := true,
          SpeedUp_input := false, SpeedDown_input := true }) := rfl
      rw [hrun]
      generalize exec s (heldPasses d) = t at k1 k2 k3 k4 p1 p2 p3 p5 ⊢
      generalize exec t (List.replicate 10 (Event.fg
        { ADRESL := 0x00, ADRESH := 0x03, UserPowerOn_input := true,
          SpeedUp_input := false, SpeedDown_input := true })) = u at p1 p2 p3 p5 ⊢
      have hdn : onSpeedDown (debounceUpdate t.button_history_speedDN true)
          (onSpeedUp (debounceUpdate t.button_history_speedUP false) t.desiredSpeedCtr) =
          onSpeedUp (debounceUpdate t.button_history_speedUP false) t.desiredSpeedCtr := by
        unfold onSpeedDown
        rw [if_neg (debounceUpdate_high_ne _)]
      rw [hdn] at p5
      have hup := debounceUpdate_eq t.button_history_speedUP false
      simp only [Bool.toNat_false, Nat.add_zero] at hup
      have hle : u.desiredSpeedCtr ≤ 11 := by
        rw [p5]; exact onSpeedUp_le _ _ k3
      refine ⟨p1, p2, hle, ?_⟩
      rcases k4 with k4 | ⟨k4, k5⟩
      · by_cases hmatch : debounceUpdate t.button_history_speedUP false = 0b10000000
        · right
          refine ⟨by rw [p5, hmatch, k4], ?_⟩
          rw [p3, hmatch]
        · left
          rw [p5, k4]
          unfold onSpeedUp
          rw [if_neg hmatch]
      · right
        have hz : debounceUpdate t.button_history_speedUP false = 0 := by
          rw [hup, k5]
        refine ⟨?_, by rw [p3, hz]⟩
        rw [p5, hz, k4]
        unfold onSpeedUp
        simp
  intro s h1 h2 h3
  exact (key d s h1 h2 h3).2.2.2
/-- C20: for every initial history and every sequence of raw samples of one
speed button, two polls `m < n` after which the history equals the press
pattern `0b10000000` are at least 8 polls apart and have a not-active (high)
sample between them. So while the button is held active the pattern is matched
at no more than one poll, and in `main` any number of Running loop passes with
the speed-up button held (and the speed-down button released) leaves
`desiredSpeedCtr` either unchanged or moved by the one up event. -/
theorem press_event_once_per_press (h0 : Nat) (samples : List Bool) (m n : Nat)
    (hmn : m < n) (hn : n ≤ samples.length)
    (hm : historyAfter h0 samples m = 0b10000000)
    (hk : historyAfter h0 samples n = 0b10000000) :
    m + 8 ≤ n ∧
    (∃ k, m ≤ k ∧ k < n ∧ samples[k]? = some true) ∧
    (∀ (g d j k : Nat), j ≤ d → k ≤ d →
      historyAfter g (List.replicate d false) j = 0b10000000 →
      historyAfter g (List.replicate d false) k = 0b10000000 → j = k) ∧
    (∀ (s : State) (d : Nat), s.pc = PC.L325 → s.PowerPermissive_output = HIGH →
      s.desiredSpeedCtr ≤ 11 →
      (exec s (heldPasses d)).desiredSpeedCtr = s.desiredSpeedCtr ∨
      (exec s (heldPasses d)).desiredSpeedCtr = onSpeedUp 0b10000000 s.desiredSpeedCtr) := by
  obtain ⟨h8, hhigh⟩ := matches_apart h0 samples m n hmn hn hm hk
  refine ⟨h8, hhigh, ?_, ?_⟩
  · intro g d j k hj hk' hmj hmk
    by_contra hne
    have hheld : ∀ a b : Nat, a < b → b ≤ d →
        historyAfter g (List.replicate d false) a = 0b10000000 →
        historyAfter g (List.replicate d false) b = 0b10000000 → False := by
      intro a b hab hb ha1 hb1
      obtain ⟨_, i, _, hi2, hi3⟩ := matches_apart g (List.replicate d false) a b hab
        (by simpa using hb) ha1 hb1
      have hmem := List.getElem?_mem hi3
      simp at hmem
    rcases Nat.lt_or_gt_of_ne hne with hlt | hgt
    · exact hheld j k hlt hk' hmj hmk
    · exact hheld k j hgt hj hmk hmj
  · intro s d h1 h2 h3
    rcases held_passes_step_once d s h1 h2 h3 with h | ⟨h, _⟩
    · exact Or.inl h
    · exact Or.inr h

/-- Witness of C20: from the idle history, a button held for 7 polls, released
for 1 and held for 7 more matches the press pattern after poll 7 and after
poll 15. -/
theorem press_event_once_per_press_witness :
    (historyAfter 0b11111111 twoPresses 7 = 0b10000000 ∧
      historyAfter 0b11111111 twoPresses 15 = 0b10000000) ∧
    7 + 8 ≤ 15 ∧ ∃ k, 7 ≤ k ∧ k < 15 ∧ twoPresses[k]? = some true :=
  ⟨⟨by decide, by decide⟩,
    (press_event_once_per_press 0b11111111 twoPresses 7 15 (by decide) (by decide)
      (by decide) (by decide)).1,
    (press_event_once_per_press 0b11111111 twoPresses 7 15 (by decide) (by decide)
      (by decide) (by decide)).2.1⟩
/-! ### Interrupt delivery around `Isr` -/

/-- C21: `Isr` disables interrupt delivery on entry and delivery is enabled
again when the routine exits: for every state in which `Isr` is entered, GIE
is 0 when the statements of its body have run, whichever of the two branches
ran and whatever GIE was, and GIE is 1 after the routine has returned; so GIE
is 1 after every run that ends with an invocation of `Isr`. -/
theorem isr_returns_with_GIE_set (s : State) (es : List Event) :
    ((IsrBody s).GIE = LOW ∧ (IsrBody { s with GIE := HIGH }).GIE = LOW) ∧
    ((Isr s).GIE = HIGH ∧ (Isr { s with GIE := LOW }).GIE = HIGH) ∧
    Isr s = { IsrBody s with GIE := HIGH } ∧
    (exec s (es ++ [Event.isr])).GIE = HIGH := by
  have hb : ∀ t : State, (IsrBody t).GIE = LOW := by
    intro t
    unfold IsrBody; simp only; split <;> split <;> rfl
  refine ⟨⟨hb s, hb _⟩, ⟨by rw [Isr_eq], by rw [Isr_eq]⟩, rfl, ?_⟩
  rw [exec_snoc]
  show (Isr (exec s es)).GIE = HIGH
  rw [Isr_eq]
/-! ### The threshold constant -/

set_option maxRecDepth 1000000 in
/-- C22, what the code does: the reading of 2.2 V against 4.8 V, rounded to the
nearest integer, is 0x1D5, as the ADC notes say, but `TestVoltage` is 0x214
(which is the rounded reading of 2.6 V against 5 V). With a reading of 0x1D6,
above the documented threshold, the supply wait loop keeps polling and
`PowerPermissive_output` stays LOW. -/
theorem testVoltage_differs_from_documented :
    roundNearest (adcReading (22 / 10) (48 / 10)) = 0x1D5 ∧
    TestVoltage = 0x214 ∧
    TestVoltage ≠ 0x1D5 ∧
    roundNearest (adcReading (26 / 10) 5) = TestVoltage ∧
    CheckHV 0xD6 0x01 = 0x1D6 ∧
    (exec (start por0) (List.replicate 7 fgAboveDocumented)).pc = PC.L272 ∧
    (exec (start por0) (List.replicate 7 fgAboveDocumented)).PowerPermissive_output = LOW := by
  refine ⟨?_, rfl, by decide, ?_, by decide, by decide, by decide⟩
  · norm_num [roundNearest, adcReading, Int.floor_eq_iff]
  · norm_num [roundNearest, adcReading, Int.floor_eq_iff, TestVoltage]

/-! ### `FlashLED1` -/

theorem fgs_add (m n : Nat) : fgs (m + n) = fgs m ++ fgs n := by
  unfold fgs
  exact List.replicate_add m n _

theorem ledTrace_append (es fs : List Event) :
    ∀ s : State, ledTrace s (es ++ fs) = ledTrace s es ++ ledTrace (exec s es) fs := by
  induction es with
  | nil => intro s; rfl
  | cons e es ih =>
    intro s
    show ledOf s e ++ ledTrace (step s e) (es ++ fs) =
      (ledOf s e ++ ledTrace (step s e) es) ++ ledTrace (exec (step s e) es) fs
    rw [ih, List.append_assoc]

/-- The delay loop of the LED-off phase (lines 458-459), entered with `p`
standing for `k` passes. -/
theorem delay_loop_off (k : Nat) :
    ∀ s : State, s.pc = PC.F458 → 1 ≤ k → k ≤ 256 → s.p = k % 256 →
      exec s (fgs (2 * k)) = { s with p := 0, pc := PC.F460 } ∧
      ledTrace s (fgs (2 * k)) = List.replicate k LedAct.delay := by
  induction k with
  | zero => intro s _ h1; omega
  | succ k ih =>
    intro s hpc _ hk hp
    by_cases hk0 : k = 0
    · subst hk0
      have hp1 : s.p = 1 := by simpa using hp
      constructor
      · simp [fgs, exec, step, fgWith, fgStep, hpc, dec8, hp1]
      · simp [fgs, ledTrace, ledOf, step, fgWith, fgStep, hpc]
    · have h2 : fgs (2 * (k + 1)) = fgs 2 ++ fgs (2 * k) := by
        rw [← fgs_add]; congr 1; omega
      have hdec : dec8 s.p = k % 256 := by
        unfold dec8; rw [hp]; omega
      have hkne : k % 256 ≠ 0 := by omega
      have hfirst : exec s (fgs 2) = { s with p := k % 256, pc := PC.F458 } := by
        simp [fgs, exec, step, fgWith, fgStep, hpc, hdec, hkne]
      have htr : ledTrace s (fgs 2) = [LedAct.delay] := by
        simp [fgs, ledTrace, ledOf, step, fgWith, fgStep, hpc]
      obtain ⟨e1, e2⟩ := ih { s with p := k % 256, pc := PC.F458 } rfl (by omega) (by omega) rfl
      rw [h2, exec_append, ledTrace_append, hfirst, e1, htr, e2]
      exact ⟨rfl, by simp [List.replicate_succ]⟩

/-- The delay loop of the LED-on phase (lines 462-463). -/
theorem delay_loop_on (k : Nat) :
    ∀ s : State, s.pc = PC.F462 → 1 ≤ k → k ≤ 256 → s.p = k % 256 →
      exec s (fgs (2 * k)) = { s with p := 0, pc := PC.F464 } ∧
      ledTrace s (fgs (2 * k)) = List.replicate k LedAct.delay := by
  induction k with
  | zero => intro s _ h1; omega
  | succ k ih =>
    intro s hpc _ hk hp
    by_cases hk0 : k = 0
    · subst hk0
      have hp1 : s.p = 1 := by simpa using hp
      constructor
      · simp [fgs, exec, step, fgWith, fgStep, hpc, dec8, hp1]
      · simp [fgs, ledTrace, ledOf, step, fgWith, fgStep, hpc]
    · have h2 : fgs (2 * (k + 1)) = fgs 2 ++ fgs (2 * k) := by
        rw [← fgs_add]; congr 1; omega
      have hdec : dec8 s.p = k % 256 := by
        unfold dec8; rw [hp]; omega
      have hkne : k % 256 ≠ 0 := by omega
      have hfirst : exec s (fgs 2) = { s with p := k % 256, pc := PC.F462 } := by
        simp [fgs, exec, step, fgWith, fgStep, hpc, hdec, hkne]
      have htr : ledTrace s (fgs 2) = [LedAct.delay] := by
        simp [fgs, ledTrace, ledOf, step, fgWith, fgStep, hpc]
      obtain ⟨e1, e2⟩ := ih { s with p := k % 256, pc := PC.F462 } rfl (by omega) (by omega) rfl
      rw [h2, exec_append, ledTrace_append, hfirst, e1, htr, e2]
      exact ⟨rfl, by simp [List.replicate_succ]⟩

theorem doWhilePasses_spec (x : Nat) (hx : x < 256) :
    1 ≤ doWhilePasses x ∧ doWhilePasses x ≤ 256 ∧ x = doWhilePasses x % 256 := by
  unfold doWhilePasses
  split_ifs with h
  · subst h; decide
  · omega

/-- One pass of the outer loop of `FlashLED1` (lines 457-464): the LED goes
off for as many delays as `p` stands for, then on for as many as `period`
stands for, and `p` is reloaded from `period`. -/
theorem flash_pass (s : State) (hpc : s.pc = PC.F457) (hp : s.p < 256)
    (hq : s.period < 256) :
    (exec s (fgs (2 * doWhilePasses s.p + 2 * doWhilePasses s.period + 4))).pc = PC.F465 ∧
    (exec s (fgs (2 * doWhilePasses s.p + 2 * doWhilePasses s.period + 4))).p = s.period ∧
    (exec s (fgs (2 * doWhilePasses s.p + 2 * doWhilePasses s.period + 4))).period
      = s.period ∧
    (exec s (fgs (2 * doWhilePasses s.p + 2 * doWhilePasses s.period + 4))).times = s.times ∧
    (exec s (fgs (2 * doWhilePasses s.p + 2 * doWhilePasses s.period + 4))).LED1 = LOW ∧
    ledTrace s (fgs (2 * doWhilePasses s.p + 2 * doWhilePasses s.period + 4)) =
      [LedAct.off] ++ List.replicate (doWhilePasses s.p) LedAct.delay ++ [LedAct.on] ++
        List.replicate (doWhilePasses s.period) LedAct.delay := by
  obtain ⟨a1, a2, a3⟩ := doWhilePasses_spec s.p hp
  obtain ⟨b1, b2, b3⟩ := doWhilePasses_spec s.period hq
  have hsplit : fgs (2 * doWhilePasses s.p + 2 * doWhilePasses s.period + 4) =
      fgs 1 ++ (fgs (2 * doWhilePasses s.p) ++ (fgs 2 ++
        (fgs (2 * doWhilePasses s.period) ++ fgs 1))) := by
    rw [← fgs_add, ← fgs_add, ← fgs_add, ← fgs_add]; congr 1; omega
  have e1 : exec s (fgs 1) = { s with LED1 := HIGH, pc := PC.F458 } := by
    simp [fgs, exec, step, fgWith, fgStep, hpc]
  have t1 : ledTrace s (fgs 1) = [LedAct.off] := by
    simp [fgs, ledTrace, ledOf, fgWith, hpc]
  have e2 : exec { s with LED1 := HIGH, pc := PC.F458 } (fgs (2 * doWhilePasses s.p)) =
      { s with LED1 := HIGH, p := 0, pc := PC.F460 } :=
    (delay_loop_off (doWhilePasses s.p) { s with LED1 := HIGH, pc := PC.F458 } rfl a1 a2 a3).1
  have t2 := (delay_loop_off (doWhilePasses s.p)
    { s with LED1 := HIGH, pc := PC.F458 } rfl a1 a2 a3).2
  have e3 : exec { s with LED1 := HIGH, p := 0, pc := PC.F460 } (fgs 2) =
      { s with LED1 := LOW, p := s.period, pc := PC.F462 } := by
    simp [fgs, exec, step, fgWith, fgStep]
  have t3 : ledTrace { s with LED1 := HIGH, p := 0, pc := PC.F460 } (fgs 2) =
      [LedAct.on] := by
    simp [fgs, ledTrace, ledOf, fgWith, step, fgStep]
  have e4 : exec { s with LED1 := LOW, p := s.period, pc := PC.F462 }
      (fgs (2 * doWhilePasses s.period)) = { s with LED1 := LOW, p := 0, pc := PC.F464 } :=
    (delay_loop_on (doWhilePasses s.period)
      { s with LED1 := LOW, p := s.period, pc := PC.F462 } rfl b1 b2 b3).1
  have t4 := (delay_loop_on (doWhilePasses s.period)
    { s with LED1 := LOW, p := s.period, pc := PC.F462 } rfl b1 b2 b3).2
  have e5 : exec { s with LED1 := LOW, p := 0, pc := PC.F464 } (fgs 1) =
      { s with LED1 := LOW, p := s.period, pc := PC.F465 } := by
    simp [fgs, exec, step, fgWith, fgStep]
  have t5 : ledTrace { s with LED1 := LOW, p := 0, pc := PC.F464 } (fgs 1) = [] := by
    simp [fgs, ledTrace, ledOf, fgWith]
  have hexec : exec s (fgs (2 * doWhilePasses s.p + 2 * doWhilePasses s.period + 4)) =
      { s with LED1 := LOW, p := s.period, pc := PC.F465 } := by
    rw [hsplit, exec_append, e1, exec_append, e2, exec_append, e3, exec_append, e4]
    exact e5
  have htrace : ledTrace s (fgs (2 * doWhilePasses s.p + 2 * doWhilePasses s.period + 4)) =
      [LedAct.off] ++ List.replicate (doWhilePasses s.p) LedAct.delay ++ [LedAct.on] ++
        List.replicate (doWhilePasses s.period) LedAct.delay := by
    rw [hsplit, ledTrace_append, t1, e1, ledTrace_append, t2, e2, ledTrace_append, t3, e3,
      ledTrace_append, t4, e4, t5]
    simp
  rw [hexec]
  exact ⟨rfl, rfl, rfl, rfl, rfl, htrace⟩

/-- The outer loop of `FlashLED1` from its test (line 465), entered with
`times` standing for `T` passes: `T - 1` more passes, then line 466. -/
theorem flash_outer (T : Nat) :
    ∀ s : State, s.pc = PC.F465 → 1 ≤ T → T ≤ 256 → s.times = T % 256 → s.p = s.period →
      s.period < 256 →
      (exec s (fgs ((T - 1) * (4 * doWhilePasses s.period + 5) + 1))).pc = PC.F466 ∧
      ledTrace s (fgs ((T - 1) * (4 * doWhilePasses s.period + 5) + 1)) =
        (List.replicate (T - 1) (flashBlock (doWhilePasses s.period))).flatten := by
  induction T with
  | zero => intro s _ h1; omega
  | succ k ih =>
    intro s hpc _ hk ht hp hq
    by_cases hk0 : k = 0
    · subst hk0
      have ht1 : s.times = 1 := by simpa using ht
      constructor
      · simp [fgs, exec, step, fgWith, fgStep, hpc, dec8, ht1]
      · simp [fgs, ledTrace, ledOf, fgWith, hpc]
    · have hdec : dec8 s.times = k % 256 := by
        unfold dec8; rw [ht]; omega
      have hkne : k % 256 ≠ 0 := by omega
      have e1 : exec s (fgs 1) = { s with times := k % 256, pc := PC.F457 } := by
        simp [fgs, exec, step, fgWith, fgStep, hpc, hdec, hkne]
      have t1 : ledTrace s (fgs 1) = [] := by
        simp [fgs, ledTrace, ledOf, fgWith, hpc]
      obtain ⟨p1, p2, p3, p4, _, p6⟩ := flash_pass { s with times := k % 256, pc := PC.F457 } rfl
        (by show s.p < 256; omega) hq
      simp only [] at p1 p2 p3 p4 p6
      rw [hp] at p1 p2 p3 p4 p6 e1
      have hn : 2 * doWhilePasses s.period + 2 * doWhilePasses s.period + 4 =
          4 * doWhilePasses s.period + 4 := by omega
      rw [hn] at p1 p2 p3 p4 p6
      obtain ⟨q1, q2⟩ := ih _ p1 (by omega) (by omega) p4 (by rw [p2, p3]) (by rw [p3]; exact hq)
      rw [p3] at q1 q2
      have hsplit : (k + 1 - 1) * (4 * doWhilePasses s.period + 5) + 1 =
          1 + ((4 * doWhilePasses s.period + 4) +
            ((k - 1) * (4 * doWhilePasses s.period + 5) + 1)) := by
        obtain ⟨j, hj⟩ : ∃ j, k = j + 1 := ⟨k - 1, by omega⟩
        subst hj
        simp only [Nat.add_sub_cancel]
        rw [Nat.succ_mul]
        omega
      rw [hsplit, fgs_add, fgs_add, exec_append, ledTrace_append, e1, t1, exec_append,
        ledTrace_append, p6]
      refine ⟨q1, ?_⟩
      rw [q2]
      obtain ⟨j, hj⟩ : ∃ j, k = j + 1 := ⟨k - 1, by omega⟩
      subst hj
      simp [flashBlock, List.replicate_succ]

/-- One call of `FlashLED1`, for every pair of 8 bit arguments: after
`flashSteps times period` statements it has returned to the `while (1)` of
`main` with LED1 HIGH, and its LED actions are `flashActs times period`. -/
theorem flashLED1_run (s : State) (times period : Nat) (ht : times < 256)
    (hp : period < 256) :
    (exec (callFlashLED1 s times period) (fgs (flashSteps times period))).pc = PC.L442 ∧
    (exec (callFlashLED1 s times period) (fgs (flashSteps times period))).LED1 = HIGH ∧
    ledTrace (callFlashLED1 s times period) (fgs (flashSteps times period)) =
      flashActs times period := by
  have hct : clampTimes times < 256 := by unfold clampTimes; split_ifs <;> omega
  have hcp : clampPeriod period < 256 := by unfold clampPeriod; split_ifs <;> omega
  obtain ⟨c1, c2, c3⟩ := doWhilePasses_spec (clampTimes times) hct
  have e0 : exec (callFlashLED1 s times period) (fgs 3) =
      { s with times := clampTimes times, period := clampPeriod period, p := period,
               pc := PC.F457 } := by
    unfold clampTimes clampPeriod
    by_cases h1 : times > 5 <;> by_cases h2 : period > 10 <;>
      simp [callFlashLED1, fgs, exec, step, fgWith, fgStep, h1, h2]
  have t0 : ledTrace (callFlashLED1 s times period) (fgs 3) = [] := by
    by_cases h1 : times > 5 <;> by_cases h2 : period > 10 <;>
      simp [callFlashLED1, fgs, ledTrace, ledOf, step, fgWith, fgStep, h1, h2]
  obtain ⟨p1, p2, p3, p4, _, p6⟩ := flash_pass
    { s with times := clampTimes times, period := clampPeriod period, p := period,
             pc := PC.F457 } rfl hp hcp
  simp only [] at p1 p2 p3 p4 p6
  obtain ⟨q1, q2⟩ := flash_outer (doWhilePasses (clampTimes times)) _ p1 c1 c2
    (by rw [p4]; exact c3) (by rw [p2, p3]) (by rw [p3]; exact hcp)
  rw [p3] at q1 q2
  have e9 : ∀ t : State, t.pc = PC.F466 →
      (exec t (fgs 1)).pc = PC.L442 ∧ (exec t (fgs 1)).LED1 = HIGH ∧
        ledTrace t (fgs 1) = [LedAct.off] := by
    intro t h
    simp [fgs, exec, ledTrace, ledOf, step, fgWith, fgStep, h]
  obtain ⟨r1, r2, r3⟩ := e9 _ q1
  have hsplit : fgs (flashSteps times period) =
      fgs 3 ++ (fgs (2 * doWhilePasses period + 2 * doWhilePasses (clampPeriod period) + 4) ++
        (fgs ((doWhilePasses (clampTimes times) - 1) *
            (4 * doWhilePasses (clampPeriod period) + 5) + 1) ++ fgs 1)) := by
    unfold flashSteps
    rw [← fgs_add, ← fgs_add, ← fgs_add]
    congr 1
    omega
  have hl : ledTrace (callFlashLED1 s times period) (fgs (flashSteps times period)) =
      flashActs times period := by
    rw [hsplit, ledTrace_append, t0, e0, ledTrace_append, p6, ledTrace_append, q2, r3]
    simp [flashActs]
  refine ⟨?_, ?_, hl⟩
  · rw [hsplit, exec_append, e0, exec_append, exec_append]
    exact r1
  · rw [hsplit, exec_append, e0, exec_append, exec_append]
    exact r2

theorem count_flatten_replicate (a : LedAct) (l : List LedAct) (n : Nat) :
    (List.replicate n l).flatten.count a = n * l.count a := by
  induction n with
  | zero => simp
  | succ n ih =>
    rw [List.replicate_succ, List.flatten_cons, List.count_append, ih, Nat.succ_mul, Nat.add_comm]

theorem flashBlock_count_on (q : Nat) : (flashBlock q).count LedAct.on = 1 := by
  simp [flashBlock, List.count_append, List.count_replicate]

/-- The number of times one call sets LED1 LOW is the number of passes its
clamped `times` stands for in `do ... while (--times)`. -/
theorem flashActs_count_on (times period : Nat) :
    (flashActs times period).count LedAct.on = doWhilePasses (clampTimes times) := by
  have h1 : 1 ≤ doWhilePasses (clampTimes times) := by
    unfold doWhilePasses; split_ifs <;> omega
  unfold flashActs
  simp only [List.count_append, count_flatten_replicate, flashBlock_count_on,
    List.count_replicate]
  simp
  omega

/-- For `times` from 1 to 255 a call sets LED1 LOW at most 5 times. -/
theorem flashLED1_flashes_le_five (s : State) (times period : Nat) (h1 : 1 ≤ times)
    (ht : times < 256) (hp : period < 256) :
    (ledTrace (callFlashLED1 s times period) (fgs (flashSteps times period))).count LedAct.on
      ≤ 5 := by
  rw [(flashLED1_run s times period ht hp).2.2, flashActs_count_on]
  unfold doWhilePasses clampTimes
  by_cases h : times > 5
  · simp [h]
  · rw [if_neg h, if_neg (by omega)]
    omega

/-- C23, what the code does at `FlashLED1(0, 1)`: the clamp of line 454 lets
`times` = 0 through, `while (--times)` wraps it to 255, and the call sets LED1
LOW 256 times, not at most 5; it ends after 2308 statements, back at the
`while (1)` of `main`, with LED1 HIGH. As `main` calls it, `FlashLED1(1, 4)`,
it sets LED1 LOW once. -/
theorem flashLED1_zero_times_flashes_256 (s : State) :
    flashSteps 0 1 = 2308 ∧
    (exec (callFlashLED1 s 0 1) (fgs (flashSteps 0 1))).pc = PC.L442 ∧
    (exec (callFlashLED1 s 0 1) (fgs (flashSteps 0 1))).LED1 = HIGH ∧
    (ledTrace (callFlashLED1 s 0 1) (fgs (flashSteps 0 1))).count LedAct.on = 256 ∧
    ¬ (ledTrace (callFlashLED1 s 0 1) (fgs (flashSteps 0 1))).count LedAct.on ≤ 5 ∧
    (ledTrace (callFlashLED1 s 1 4) (fgs (flashSteps 1 4))).count LedAct.on = 1 := by
  obtain ⟨h1, h2, h3⟩ := flashLED1_run s 0 1 (by decide) (by decide)
  have h4 := (flashLED1_run s 1 4 (by decide) (by decide)).2.2
  have c0 : (flashActs 0 1).count LedAct.on = 256 := by
    rw [flashActs_count_on]; decide
  have c1 : (flashActs 1 4).count LedAct.on = 1 := by
    rw [flashActs_count_on]; decide
  refine ⟨by decide, h1, h2, ?_, ?_, ?_⟩
  · rw [h3, c0]
  · rw [h3, c0]; decide
  · rw [h4, c1]

set_option maxRecDepth 1000000 in
/-- C24, what the code does at `FlashLED1(1, 200)` and `FlashLED1(1, 0)`: line
453 copies `period` into `p` before line 455 clamps it, so the first LED-off
phase of `FlashLED1(1, 200)` is 200 delays and only the LED-on phase is 10;
`period` = 0 passes the clamp and `while (--p)` wraps, so both phases of
`FlashLED1(1, 0)` are 256 delays. As `main` calls it, `FlashLED1(1, 4)`, both
phases are 4 delays. -/
theorem flashLED1_phase_exceeds_ten_delays (s : State) :
    ledTrace (callFlashLED1 s 1 200) (fgs (flashSteps 1 200)) =
      [LedAct.off] ++ List.replicate 200 LedAct.delay ++ [LedAct.on] ++
        List.replicate 10 LedAct.delay ++ [LedAct.off] ∧
    ledTrace (callFlashLED1 s 1 0) (fgs (flashSteps 1 0)) =
      [LedAct.off] ++ List.replicate 256 LedAct.delay ++ [LedAct.on] ++
        List.replicate 256 LedAct.delay ++ [LedAct.off] ∧
    ledTrace (callFlashLED1 s 1 4) (fgs (flashSteps 1 4)) =
      [LedAct.off] ++ List.replicate 4 LedAct.delay ++ [LedAct.on] ++
        List.replicate 4 LedAct.delay ++ [LedAct.off] := by
  refine ⟨?_, ?_, ?_⟩
  · rw [(flashLED1_run s 1 200 (by decide) (by decide)).2.2]
    rfl
  · rw [(flashLED1_run s 1 0 (by decide) (by decide)).2.2]
    rfl
  · rw [(flashLED1_run s 1 4 (by decide) (by decide)).2.2]
    rfl

/-- For `period` from 1 to 10 every phase of a call is exactly `period`
delays. -/
theorem flashLED1_phases_exact (s : State) (times period : Nat) (ht : times < 256)
    (h1 : 1 ≤ period) (h10 : period ≤ 10) :
    ledTrace (callFlashLED1 s times period) (fgs (flashSteps times period)) =
      [LedAct.off] ++ List.replicate period LedAct.delay ++ [LedAct.on] ++
        List.replicate period LedAct.delay ++
        (List.replicate (doWhilePasses (clampTimes times) - 1) (flashBlock period)).flatten ++
        [LedAct.off] := by
  rw [(flashLED1_run s times period ht (by omega)).2.2]
  have hc : clampPeriod period = period := by
    unfold clampPeriod; rw [if_neg (by omega)]
  have hd : doWhilePasses period = period := by
    unfold doWhilePasses; rw [if_neg (by omega)]
  unfold flashActs
  rw [hc, hd]

/-! ### The Running loop and the drive outputs -/

theorem loopChecks_append (es fs : List Event) :
    ∀ s : State, loopChecks s (es ++ fs) = loopChecks s es ++ loopChecks (exec s es) fs := by
  induction es with
  | nil => intro s; rfl
  | cons e es ih =>
    intro s
    show loopCheckOf s e ++ loopChecks (step s e) (es ++ fs) =
      (loopCheckOf s e ++ loopChecks (step s e) es) ++ loopChecks (exec (step s e) es) fs
    rw [ih, List.append_assoc]

theorem loopChecks_singleton (s : State) (e : Event) : loopChecks s [e] = loopCheckOf s e := by
  simp [loopChecks]

/-- No statement of the Running loop writes one of the two drive outputs or
the pulse counter. -/
theorem fgStep_running_frame (t : State) (i : Pins) (h : inRunning t.pc = true) :
    (fgStep t i).PowerPermissive_output = t.PowerPermissive_output ∧
    (fgStep t i).TotemControl_output = t.TotemControl_output ∧
    (fgStep t i).actualSpeedPulses = t.actualSpeedPulses := by
  unfold fgStep
  split <;> (try split) <;> simp_all [inRunning]

theorem fgStep_runningInv (s : State) (i : Pins) (h : RunningInv s) :
    RunningInv (fgStep s i) := by
  obtain ⟨h1, h2⟩ := h
  unfold RunningInv fgStep
  split <;> (try split) <;> simp_all [driveStage]

theorem step_runningInv (s : State) (e : Event) (h : RunningInv s) :
    RunningInv (step s e) := by
  cases e with
  | fg i => exact fgStep_runningInv s i h
  | isr => simpa [RunningInv, step] using h
  | c1Edge => exact h
  | tmr1Overflow => exact h

theorem start_runningInv (por : State) : RunningInv (start por) := by
  simp [RunningInv, start, doSetup, entry, startPWM, setupactualSpeedPulses, driveStage]

theorem exec_runningInv (por : State) (es : List Event) :
    RunningInv (exec (start por) es) :=
  exec_invariant RunningInv step_runningInv es _ (start_runningInv por)

theorem inRunning_driveStage (pc : PC) : inRunning pc = true ↔ driveStage pc = 2 := by
  cases pc <;> simp [inRunning, driveStage]

/-- One step from a state of the Running loop: the loop goes on unless the
step is the loop test and reads a low sample, and then line 430 is next. -/
theorem step_running (s : State) (e : Event) (hc : CtrInv s) (hr : RunningInv s)
    (hin : inRunning s.pc = true) :
    (inRunning (step s e).pc = true ↔ ∀ b ∈ loopCheckOf s e, b = true) ∧
    (inRunning (step s e).pc = false → (step s e).pc = PC.L430) := by
  obtain ⟨hc1, _⟩ := hc
  obtain ⟨v, hv⟩ := desiredSpeed_lookup _ hc1
  have hp := hr.1 (by rw [(inRunning_driveStage _).1 hin]; decide)
  cases e with
  | fg i =>
    simp only [step]
    unfold fgStep loopCheckOf
    split <;> (try split) <;> simp_all [inRunning]
  | isr => simp [step, loopCheckOf, hin]
  | c1Edge => simp [step, loopCheckOf, hin]
  | tmr1Overflow => simp [step, loopCheckOf, hin]

/-- After the Running loop no step leads back into it, and none is its test. -/
theorem step_after_running (s : State) (e : Event) (h : toTerminal s.pc ≤ 5) :
    toTerminal (step s e).pc ≤ 5 ∧ loopCheckOf s e = [] ∧ inRunning s.pc = false := by
  cases e with
  | fg i =>
    have h1 := fgStep_toTerminal s i h
    refine ⟨by simp only [step]; omega, ?_, ?_⟩
    · unfold loopCheckOf; split <;> simp_all [toTerminal]
    · revert h; cases s.pc <;> simp [toTerminal, inRunning]
  | isr =>
    refine ⟨by simpa [step] using h, by simp [loopCheckOf], ?_⟩
    revert h; cases s.pc <;> simp [toTerminal, inRunning]
  | c1Edge =>
    refine ⟨by simpa [step] using h, by simp [loopCheckOf], ?_⟩
    revert h; cases s.pc <;> simp [toTerminal, inRunning]
  | tmr1Overflow =>
    refine ⟨by simpa [step] using h, by simp [loopCheckOf], ?_⟩
    revert h; cases s.pc <;> simp [toTerminal, inRunning]

theorem not_running_of_toTerminal (pc : PC) (h : toTerminal pc ≤ 5) : inRunning pc = false := by
  revert h; cases pc <;> simp [toTerminal, inRunning]

/-- From a state of the Running loop the run stays in the loop exactly as long
as every loop test has read a high sample; outside the loop it is in the
shutdown pass or in the terminal loop. -/
theorem exec_running (por : State) (es fs : List Event)
    (hrun : inRunning (exec (start por) es).pc = true) :
    (inRunning (exec (start por) (es ++ fs)).pc = true ↔
      ∀ b ∈ loopChecks (exec (start por) es) fs, b = true) ∧
    (inRunning (exec (start por) (es ++ fs)).pc = false →
      toTerminal (exec (start por) (es ++ fs)).pc ≤ 5) := by
  induction fs using List.reverseRecOn with
  | nil => simp [loopChecks, hrun]
  | append_singleton fs e ih =>
    obtain ⟨ih1, ih2⟩ := ih
    rw [← List.append_assoc, exec_snoc, loopChecks_append, loopChecks_singleton,
      ← exec_append]
    by_cases hu : inRunning (exec (start por) (es ++ fs)).pc = true
    · obtain ⟨k1, k2⟩ := step_running _ e (exec_ctrInv por (es ++ fs))
        (exec_runningInv por (es ++ fs)) hu
      have hall := ih1.1 hu
      refine ⟨?_, ?_⟩
      · rw [k1]
        constructor
        · intro h b hb
          rcases List.mem_append.1 hb with hb | hb
          · exact hall b hb
          · exact h b hb
        · intro h b hb
          exact h b (List.mem_append.2 (Or.inr hb))
      · intro h
        rw [k2 h]
        decide
    · have hu2 : inRunning (exec (start por) (es ++ fs)).pc = false := by
        simpa using hu
      obtain ⟨a1, _, _⟩ := step_after_running _ e (ih2 hu2)
      have hn := not_running_of_toTerminal _ a1
      refine ⟨?_, fun _ => a1⟩
      constructor
      · intro h
        rw [hn] at h
        exact absurd h (by decide)
      · intro h
        exact absurd (ih1.2 (fun b hb => h b (List.mem_append.2 (Or.inl hb)))) hu

/-- C26: no statement of the Running loop (its test and its body, lines
325-410) writes `PowerPermissive_output`, `TotemControl_output` or
`actualSpeedPulses`. In every state of the Running loop that `main` reaches,
under every sequence of pin samples and interrupts, both outputs are HIGH; the
run stays in the loop exactly as long as every loop test has read
`UserPowerOn_input` high, and a loop test that reads it low, once, leads to
line 430, whatever the histories hold. -/
theorem running_loop_ends_at_first_low_sample (por : State) (es fs : List Event)
    (hrun : inRunning (exec (start por) es).pc = true) :
    (∀ (t : State) (i : Pins), inRunning t.pc = true →
      (fgStep t i).PowerPermissive_output = t.PowerPermissive_output ∧
      (fgStep t i).TotemControl_output = t.TotemControl_output ∧
      (fgStep t i).actualSpeedPulses = t.actualSpeedPulses) ∧
    (exec (start por) es).PowerPermissive_output = HIGH ∧
    (exec (start por) es).TotemControl_output = HIGH ∧
    (inRunning (exec (start por) (es ++ fs)).pc = true ↔
      ∀ b ∈ loopChecks (exec (start por) es) fs, b = true) ∧
    (∀ i : Pins, (exec (start por) es).pc = PC.L325 → i.UserPowerOn_input = false →
      (exec (start por) (es ++ [Event.fg i])).pc = PC.L430) := by
  have hst := (inRunning_driveStage _).1 hrun
  obtain ⟨r1, r2⟩ := exec_runningInv por es
  refine ⟨fgStep_running_frame, r1 (by rw [hst]; decide), r2 hst,
    (exec_running por es fs hrun).1, ?_⟩
  intro i hpc hi
  rw [exec_snoc]
  simp [step, fgStep, hpc, hi]

set_option maxRecDepth 1000000 in
/-- Witness of C26: at the end of the scenario the program is at the test of
the Running loop, and one low sample of `UserPowerOn_input` leads to line 430. -/
theorem running_loop_ends_at_first_low_sample_witness :
    inRunning (exec (start por0) scenario).pc = true ∧
    (exec (start por0) scenario).PowerPermissive_output = HIGH ∧
    (exec (start por0) scenario).TotemControl_output = HIGH ∧
    (inRunning (exec (start por0) (scenario ++ [fgWith false true true])).pc = true ↔
      ∀ b ∈ loopChecks (exec (start por0) scenario) [fgWith false true true], b = true) :=
  ⟨by decide,
    (running_loop_ends_at_first_low_sample por0 scenario [fgWith false true true]
      (by decide)).2.1,
    (running_loop_ends_at_first_low_sample por0 scenario [fgWith false true true]
      (by decide)).2.2.1,
    (running_loop_ends_at_first_low_sample por0 scenario [fgWith false true true]
      (by decide)).2.2.2.1⟩

/-- C25: when a pass of the Running loop finds both press patterns (at line
392, after the four history statements, both histories are `0b10000000`), the
up event is applied first, saturating at 11, and the down event after it: a
speed step from 0 to 10 goes up by one and comes back, 11 stays 11 and then
becomes 10. -/
theorem both_presses_up_then_down (s : State) (i : Pins) (hpc : s.pc = PC.L325)
    (hu : i.UserPowerOn_input = true) (hp : s.PowerPermissive_output = HIGH)
    (hc : s.desiredSpeedCtr ≤ 11)
    (hup : debounceUpdate s.button_history_speedUP i.SpeedUp_input = 0b10000000)
    (hdn : debounceUpdate s.button_history_speedDN i.SpeedDown_input = 0b10000000) :
    ((exec s (List.replicate 6 (Event.fg i))).pc = PC.L392 ∧
      (exec s (List.replicate 6 (Event.fg i))).button_history_speedUP = 0b10000000 ∧
      (exec s (List.replicate 6 (Event.fg i))).button_history_speedDN = 0b10000000 ∧
      (exec s (List.replicate 6 (Event.fg i))).desiredSpeedCtr = s.desiredSpeedCtr) ∧
    ((exec s (List.replicate 7 (Event.fg i))).pc = PC.L397 ∧
      (exec s (List.replicate 7 (Event.fg i))).desiredSpeedCtr =
        if s.desiredSpeedCtr < 11 then s.desiredSpeedCtr + 1 else 11) ∧
    ((exec s (List.replicate 8 (Event.fg i))).pc = PC.L408 ∧
      (exec s (List.replicate 8 (Event.fg i))).desiredSpeedCtr =
        if s.desiredSpeedCtr = 11 then 10 else s.desiredSpeedCtr) ∧
    ((exec s (List.replicate 10 (Event.fg i))).pc = PC.L325 ∧
      (exec s (List.replicate 10 (Event.fg i))).desiredSpeedCtr =
        if s.desiredSpeedCtr = 11 then 10 else s.desiredSpeedCtr) := by
  obtain ⟨p1, _, _, _, p5⟩ := running_pass s i hpc hu hp hc
  have hup2 := hup
  have hdn2 := hdn
  unfold debounceUpdate at hup2 hdn2
  have hud : onSpeedUp 0b10000000 s.desiredSpeedCtr =
      if s.desiredSpeedCtr < 11 then s.desiredSpeedCtr + 1 else 11 := by
    unfold onSpeedUp inc8
    split_ifs <;> omega
  have hdd : onSpeedDown 0b10000000 (onSpeedUp 0b10000000 s.desiredSpeedCtr) =
      if s.desiredSpeedCtr = 11 then 10 else s.desiredSpeedCtr := by
    unfold onSpeedDown onSpeedUp inc8 dec8
    split_ifs <;> omega
  refine ⟨?_, ?_, ?_, p1, ?_⟩
  · simp [exec, List.replicate, step, fgStep, hpc, hu, hp, hup2, hdn2]
  · simp [exec, List.replicate, step, fgStep, hpc, hu, hp, hup2, hdn2, hud]
  · simp [exec, List.replicate, step, fgStep, hpc, hu, hp, hup2, hdn2, hdd]
  · rw [p5, hup, hdn, hdd]

set_option maxRecDepth 1000000 in
/-- Witness of C25: after the consent and six passes with both buttons held,
the seventh pass finds both patterns; the speed step is 0, goes to 1 at line
392 and is back at 0 at the end of the pass. -/
theorem both_presses_up_then_down_witness :
    (exec (start por0) bothHeldFromStart).pc = PC.L325 ∧
    (exec (start por0) bothHeldFromStart).desiredSpeedCtr = 0 ∧
    (exec (exec (start por0) bothHeldFromStart)
      (List.replicate 7 (Event.fg bothHeld))).desiredSpeedCtr =
        (if (exec (start por0) bothHeldFromStart).desiredSpeedCtr < 11 then
          (exec (start por0) bothHeldFromStart).desiredSpeedCtr + 1 else 11) ∧
    (exec (exec (start por0) bothHeldFromStart)
      (List.replicate 10 (Event.fg bothHeld))).desiredSpeedCtr =
        (if (exec (start por0) bothHeldFromStart).desiredSpeedCtr = 11 then 10
          else (exec (start por0) bothHeldFromStart).desiredSpeedCtr) :=
  ⟨by decide, by decide,
    (both_presses_up_then_down (exec (start por0) bothHeldFromStart) bothHeld (by decide)
      (by decide) (by decide) (by decide) (by decide) (by decide)).2.1.2,
    (both_presses_up_then_down (exec (start por0) bothHeldFromStart) bothHeld (by decide)
      (by decide) (by decide) (by decide) (by decide) (by decide)).2.2.2.2⟩

end PF906
